import Mathlib

/-!
Verification of the flu-contest hospitalization regression module
(`src/hosp/regression.py`).

The Python module is shallowly embedded: external collaborators (the data
store, the calendar utilities `hosp_utils`, the feature-extraction layer
`preparation`, the sklearn metric functions, and the estimator families of
`ml_utils`) are modelled as an environment record `Env` of pure functions,
while the control flow of `train_model`, `validate`, `nowcast_report`,
`run_nowcast_experiment` and `predict` is translated statement by statement.
Python exceptions are modelled with `Except String`; the numpy `-inf`
sentinel of the metric matrices is modelled by `⊥ : WithBot ℚ`; machine
floats are modelled by `ℚ`.
-/

namespace FluRegression

/-- Epiweeks are opaque time identifiers; arithmetic on them is delegated to
the calendar collaborator, so a `Nat` code suffices. -/
abbrev Epiweek := Nat

/-- Locations are state codes (strings in the source). -/
abbrev Loc := String

/-- Age groups are small integer codes in the source. -/
abbrev Grp := Nat

/-- A time period is represented by its (start, end) epiweek pair; the
calendar collaborator `unravel` expands it to the list of contained weeks. -/
abbrev TimePeriod := Epiweek × Epiweek

/-- Default used to translate Python's in-bounds list indexing to `List.getD`. -/
def defaultLoc : Loc := ""

/-- Default used to translate Python's in-bounds list indexing to `List.getD`. -/
def defaultGrp : Grp := 0

/-- The three quantile levels `UPPER_QUANT`, `MID_QUANT`, `LOWER_QUANT` of the
source's `constants` module (the constants module is not under `src/`; only
the three symbolic levels matter to the core control flow). -/
inductive QLevel : Type
  | upper
  | mid
  | lower
deriving DecidableEq, Repr

/-- Environment of external collaborators, as delimited by spec §1/§6:
data store membership and extraction (`prepare` / `fetch`), the calendar
utilities, the estimator factory (`ml_utils` families, keyed by model-type
tag and quantile level; a fitted model is a pure prediction function
`ℚ → ℚ` on feature vectors), the sklearn metrics (fallible, since sklearn
raises on degenerate input), and the numeric constants of the `constants`
module (`FIRST_YEAR`, `YEAR_WINDOW`, `PENALTY`). -/
structure Env : Type where
  mem : Epiweek → Grp → Loc → Bool
  fetch : Loc → Grp → Epiweek → Nat → Nat → Nat → Nat → ℚ × ℚ × ℚ
  prepare : List Loc → List Grp → List TimePeriod → Nat → Nat → Nat → Nat → ℚ × ℚ
  fit : String → QLevel → ℚ → ℚ → ℚ → ℚ
  getStartYear : Epiweek → Int
  getPeriod : Int → Nat → Nat → TimePeriod
  getMaxWindow : Epiweek → Nat
  unravel : TimePeriod → List Epiweek
  r2Score : List ℚ → List ℚ → Except String ℚ
  mseScore : List ℚ → List ℚ → Except String ℚ
  firstYear : Int
  yearWindow : Int
  penalty : ℚ

/-- Error raised when `train_model` is given an unrecognized model-type tag
(in the Python source the if/elif chain falls through and the subsequent
use of the unbound `model_upper` raises; no default model is ever fitted). -/
def invalid_model_type_msg : String := "invalid model_type"

/-- The six model-type tags recognized by `train_model`. -/
def recognized_model_types : List String :=
  ["lin", "ridge", "gbdt", "quant_lin", "quant_ridge", "quant_gbdt"]

/-- Embedding of `train_model` (regression.py lines 26-74): builds the triple
(model_upper, model, model_lower).  The co-trained families (`quant_lin`,
`quant_ridge`) and the independently fitted families (`lin`, `ridge`,
`gbdt`, `quant_gbdt`) both produce three fitted estimators from (X, Y); a
tag outside the six falls through the if/elif chain and fails. -/
def train_model (env : Env) (X Y : ℚ) (model_type : String) :
    Except String ((ℚ → ℚ) × (ℚ → ℚ) × (ℚ → ℚ)) :=
  -- determine if co-training is necessary
  if model_type = "quant_lin" ∨ model_type = "quant_ridge" then
    .ok (env.fit model_type QLevel.upper X Y,
         env.fit model_type QLevel.mid X Y,
         env.fit model_type QLevel.lower X Y)
  else if model_type = "lin" ∨ model_type = "ridge" ∨ model_type = "gbdt" ∨
      model_type = "quant_gbdt" then
    .ok (env.fit model_type QLevel.upper X Y,
         env.fit model_type QLevel.mid X Y,
         env.fit model_type QLevel.lower X Y)
  else
    .error invalid_model_type_msg

/-- Python's `range(a, b)` on integers. -/
def intRange (a b : Int) : List Int :=
  (List.range (b - a).toNat).map (fun i => a + i)

/-- Embedding of the training-season computation of `validate`
(regression.py lines 110-116): mode `all` uses every season from
`FIRST_YEAR` up to (excluding) the start year; mode `prev` uses the trailing
`YEAR_WINDOW` seasons; any other mode leaves the list empty. -/
def model_periods (env : Env) (mode : String) (start_year : Int) : List TimePeriod :=
  if mode = "all" then
    (intRange env.firstYear start_year).map (fun year => env.getPeriod year 40 17)
  else if mode = "prev" then
    (intRange (max env.firstYear (start_year - env.yearWindow)) start_year).map
      (fun year => env.getPeriod year 40 17)
  else
    []

/-- Modelled from the spec: `create_double_list` lives in the repository's
`tools` module, which is not under `src/`.  Per spec §5/§9 it returns a
fresh `len(locations) × len(groups)` grid whose cells all start as (deep
copies of) the given template value; the functional representation makes
every cell its own copy. -/
def create_double_list {α : Type} (init : α) (_nL _nG : Nat) : Nat → Nat → α :=
  fun _ _ => init

/-- Result record of `validate`: the visited weeks and the five parallel
per-(location, group) result grids. -/
structure ValidateResult : Type where
  valid_weeks : List Epiweek
  predictions : Nat → Nat → List ℚ
  predictions_lower : Nat → Nat → List ℚ
  predictions_upper : Nat → Nat → List ℚ
  cur_truth : Nat → Nat → List ℚ
  ground_truth : Nat → Nat → List ℚ

/-- The per-pair guard of `validate`'s inner loop: indices in range and
`(epiweek, group, location) in data`. -/
def pairHit (env : Env) (locations : List Loc) (groups : List Grp)
    (epiweek : Epiweek) (l g : Nat) : Bool :=
  decide (l < locations.length) && decide (g < groups.length) &&
    env.mem epiweek (groups.getD g defaultGrp) (locations.getD l defaultLoc)

/-- One iteration of `validate`'s epiweek loop (regression.py lines 130-154):
the epiweek is appended to `valid_weeks` unconditionally; each in-range
(location, group) pair with data appends one prediction triple and the two
truth values. -/
def validateStep (env : Env) (model_upper model model_lower : ℚ → ℚ)
    (locations : List Loc) (groups : List Grp) (lag lw rw bw : Nat)
    (acc : ValidateResult) (epiweek : Epiweek) : ValidateResult :=
  let sample : Nat → Nat → ℚ × ℚ × ℚ := fun l g =>
    env.fetch (locations.getD l defaultLoc) (groups.getD g defaultGrp) epiweek lag lw rw bw
  { valid_weeks := acc.valid_weeks ++ [epiweek]
    predictions := fun l g =>
      if pairHit env locations groups epiweek l g then
        acc.predictions l g ++ [model (sample l g).1]
      else acc.predictions l g
    predictions_lower := fun l g =>
      if pairHit env locations groups epiweek l g then
        acc.predictions_lower l g ++ [model_lower (sample l g).1]
      else acc.predictions_lower l g
    predictions_upper := fun l g =>
      if pairHit env locations groups epiweek l g then
        acc.predictions_upper l g ++ [model_upper (sample l g).1]
      else acc.predictions_upper l g
    cur_truth := fun l g =>
      if pairHit env locations groups epiweek l g then
        acc.cur_truth l g ++ [(sample l g).2.1]
      else acc.cur_truth l g
    ground_truth := fun l g =>
      if pairHit env locations groups epiweek l g then
        acc.ground_truth l g ++ [(sample l g).2.2]
      else acc.ground_truth l g }

/-- The empty collectors of `validate` (five `create_double_list([] ...)`
calls plus the empty `valid_weeks`). -/
def validateInit (nL nG : Nat) : ValidateResult :=
  { valid_weeks := []
    predictions := create_double_list [] nL nG
    predictions_lower := create_double_list [] nL nG
    predictions_upper := create_double_list [] nL nG
    cur_truth := create_double_list [] nL nG
    ground_truth := create_double_list [] nL nG }

/-- Embedding of `validate` (regression.py lines 76-157): assemble the
training periods per the mode, build (X, Y), fit the model triple, then
sweep every epiweek of the target period collecting per-pair results. -/
def validate (env : Env) (locations : List Loc) (groups : List Grp)
    (time_period : TimePeriod) (lag lw rw bw : Nat)
    (mode model_type : String) : Except String ValidateResult := do
  let start_year := env.getStartYear time_period.1
  let period := env.unravel time_period
  let mps := model_periods env mode start_year
  let XY := env.prepare locations groups mps lag lw rw bw
  let ms ← train_model env XY.1 XY.2 model_type
  pure (period.foldl
    (validateStep env ms.1 ms.2.1 ms.2.2 locations groups lag lw rw bw)
    (validateInit locations.length groups.length))

/-- A single metric cell value: `⊥` models both the `None` initial cells of
`nowcast_report`'s result grids and the `-inf` sentinel of the orchestrator's
matrices. -/
abbrev MetricGrid := Nat → Nat → WithBot ℚ

/-- Assignment `grid[l][g] = v` on a per-pair metric grid. -/
def setPairCell (grid : MetricGrid) (l g : Nat) (v : WithBot ℚ) : MetricGrid :=
  fun l2 g2 => if l2 = l ∧ g2 = g then v else grid l2 g2

/-- Embedding of `nowcast_report` (regression.py lines 159-227): run
`validate` with `lag = 0`, `right_window = 0`, then compute the R² and MSE
of each (location, group) pair against backfilled ground truth.  The metric
calls are the external sklearn functions; the source wraps them in no
handler, so a metric failure propagates.  The plotting side effects go to
the reporting sink and are outside the model. -/
def nowcast_report (env : Env) (locations : List Loc) (groups : List Grp)
    (time_period : TimePeriod) (left_window backfill_window : Nat)
    (mode model_type : String) : Except String (MetricGrid × MetricGrid) := do
  let rsq0 : MetricGrid := create_double_list ⊥ locations.length groups.length
  let mse0 : MetricGrid := create_double_list ⊥ locations.length groups.length
  let r ← validate env locations groups time_period 0 left_window 0 backfill_window
    mode model_type
  (List.range locations.length).foldlM (fun (rm : MetricGrid × MetricGrid) l =>
    (List.range groups.length).foldlM (fun (rm : MetricGrid × MetricGrid) g => do
      let rsqv ← env.r2Score (r.ground_truth l g) (r.predictions l g)
      let msev ← env.mseScore (r.ground_truth l g) (r.predictions l g)
      pure (setPairCell rm.1 l g ((rsqv : ℚ) : WithBot ℚ),
            setPairCell rm.2 l g ((msev : ℚ) : WithBot ℚ))) rm)
    (rsq0, mse0)

/-- A window × backfill metric matrix (numpy `full((max_window+1,
max_window+1), -inf)`); unwritten cells stay at the sentinel `⊥`. -/
abbrev Mat := Nat → Nat → WithBot ℚ

/-- The sentinel-filled matrix template `np.full(..., -np.inf)`. -/
def mat_template : Mat := fun _ _ => ⊥

/-- Per-(location, group) grids of metric matrices. -/
abbrev PairGrid := Nat → Nat → Mat

/-- Assignment `results[l][g][window][backfill] = v`: per spec §5/§9 each
(location, group) pair owns a deep copy of the matrix template, so the write
touches only that pair's matrix and only the one cell. -/
def writeCell (grid : PairGrid) (l g w b : Nat) (v : WithBot ℚ) : PairGrid :=
  fun l2 g2 =>
    if l2 = l ∧ g2 = g then
      fun w2 b2 => if w2 = w ∧ b2 = b then v else grid l g w2 b2
    else grid l2 g2

/-- The cell-recording loop of `run_nowcast_experiment` (regression.py lines
314-317): after one `nowcast_report` call at (window, backfill), store each
pair's MSE and R² into that pair's matrices. -/
def record_report (nL nG : Nat) (mseGrid rsqGrid : PairGrid) (window backfill : Nat)
    (rsq mse : MetricGrid) : PairGrid × PairGrid :=
  (List.range nL).foldl (fun (gg : PairGrid × PairGrid) l =>
    (List.range nG).foldl (fun (gg : PairGrid × PairGrid) g =>
      (writeCell gg.1 l g window backfill (mse l g),
       writeCell gg.2 l g window backfill (rsq l g))) gg) (mseGrid, rsqGrid)

/-- The window × backfill sweep of `run_nowcast_experiment` (regression.py
lines 303-317) for one (locations, groups) pair of groupings: for each
`window ≤ max_window` and each `backfill ≤ window`, run the report and
record its metrics.  Returns (mse_results, rsq_results). -/
def sweepGrid (env : Env) (locations : List Loc) (groups : List Grp)
    (period : TimePeriod) (max_window : Nat) (mode model_type : String) :
    Except String (PairGrid × PairGrid) :=
  let mse0 : PairGrid := create_double_list mat_template locations.length groups.length
  let rsq0 : PairGrid := create_double_list mat_template locations.length groups.length
  (List.range (max_window + 1)).foldlM (fun (gg : PairGrid × PairGrid) window =>
    (List.range (window + 1)).foldlM (fun (gg : PairGrid × PairGrid) backfill => do
      let rm ← nowcast_report env locations groups period window backfill mode model_type
      pure (record_report locations.length groups.length gg.1 gg.2 window backfill
        rm.1 rm.2)) gg) (mse0, rsq0)

/-- The results-summary dictionary written by `run_nowcast_experiment`,
keyed by (period, group); Python dict assignment is pointwise update. -/
abbrev Summary := TimePeriod × Grp → Option (WithBot ℚ)

/-- Pointwise dictionary assignment `d[k] = v`. -/
def updOption {κ β : Type} [DecidableEq κ] (m : κ → Option β) (k : κ) (v : β) :
    κ → Option β :=
  fun k2 => if k2 = k then some v else m k2

/-- `np.amax` of a `n × n` metric matrix (over the whole matrix, sentinel
cells included). -/
def matMax (n : Nat) (m : Mat) : WithBot ℚ :=
  ((List.range n).flatMap (fun i => (List.range n).map (fun j => m i j))).foldl max ⊥

/-- The summary-writing loop of `run_nowcast_experiment` (regression.py lines
318-330): for each location index and group index (plots go to the sink),
assign `results[(period, group)] = np.amax(rsq_results[l][g])`.  Later
locations overwrite earlier ones for the same (period, group) key. -/
def write_summary (period : TimePeriod) (locations : List Loc) (groups : List Grp)
    (rsqResults : PairGrid) (max_window : Nat) (results : Summary) : Summary :=
  (List.range locations.length).foldl (fun (res : Summary) l =>
    (List.range groups.length).foldl (fun (res : Summary) g =>
      updOption res (period, groups.getD g defaultGrp)
        (matMax (max_window + 1) (rsqResults l g))) res) results

/-- Embedding of `run_nowcast_experiment` (regression.py lines 263-332):
sweep every period × location-grouping × age-grouping, record the metric
matrices, and write the per-(period, group) summary.  Directory creation and
plotting are reporting-sink side effects outside the model; the function's
observable output is the summary written to `./nowcast/results.txt`. -/
def run_nowcast_experiment (env : Env) (location_groups : List (List Loc))
    (groupings : List (List Grp)) (time_periods : List TimePeriod)
    (max_window : Nat) (mode model_type : String) : Except String Summary :=
  time_periods.foldlM (fun (results : Summary) period =>
    location_groups.foldlM (fun (results : Summary) locations =>
      groupings.foldlM (fun (results : Summary) groups => do
        let gg ← sweepGrid env locations groups period max_window mode model_type
        pure (write_summary period locations groups gg.2 max_window results))
        results) results)
    (fun _ => none)

/-- Modelled from the spec: `flatten_double_list` (repository `tools` module,
not under `src/`) flattens a per-(location, group) grid of result sequences
across all pairs into a single vector (spec §4.5: "flattens the resulting
prediction/ground-truth grids across all (location, group) pairs into single
vectors"); `np.vstack(...).squeeze()` then yields that flat vector. -/
def flatten_double_list (nL nG : Nat) (f : Nat → Nat → List ℚ) : List ℚ :=
  (List.range nL).flatMap (fun l => (List.range nG).flatMap (fun g => f l g))

/-- The penalized score of one candidate window in `predict`'s sweep
(regression.py lines 382-392): run `validate` on the validation period with
`lag = 0`, `right_window = 0`, `left_window = backfill_window = window`,
flatten predictions and ground truth, and penalize the R² by
`PENALTY * window`. -/
def scoreAt (env : Env) (locations : List Loc) (groups : List Grp)
    (val_period : TimePeriod) (mode model_type : String) (window : Nat) :
    Except String ℚ := do
  let r ← validate env locations groups val_period 0 window 0 window mode model_type
  let predictions := flatten_double_list locations.length groups.length r.predictions
  let ground_truth := flatten_double_list locations.length groups.length r.ground_truth
  let rsq ← env.r2Score ground_truth predictions
  pure (rsq - env.penalty * (window : ℚ))

/-- One iteration of `predict`'s hyperparameter loop (regression.py lines
382-396): update `(opt_window, cur_rsq)` only on a strict improvement. -/
def predict_sweep_step (env : Env) (locations : List Loc) (groups : List Grp)
    (val_period : TimePeriod) (mode model_type : String)
    (acc : Nat × ℚ) (window : Nat) : Except String (Nat × ℚ) := do
  let rsq ← scoreAt env locations groups val_period mode model_type window
  if rsq > acc.2 then pure (window, rsq) else pure acc

/-- `predict`'s hyperparameter sweep (regression.py lines 377-396): scan
windows `0 .. max_window` in increasing order starting from
`opt_window = 0`, `cur_rsq = 0.0`. -/
def predict_sweep (env : Env) (locations : List Loc) (groups : List Grp)
    (val_period : TimePeriod) (mode model_type : String) (max_window : Nat) :
    Except String (Nat × ℚ) :=
  (List.range (max_window + 1)).foldlM
    (predict_sweep_step env locations groups val_period mode model_type)
    (0, (0 : ℚ))

/-- The three per-pair collector grids `cur_preds`, `cur_preds_upper`,
`cur_preds_lower` of `predict`. -/
structure CurPreds : Type where
  preds : Nat → Nat → List ℚ
  preds_upper : Nat → Nat → List ℚ
  preds_lower : Nat → Nat → List ℚ

/-- Append into one cell of a collector grid. -/
def appendAt (f : Nat → Nat → List ℚ) (l g : Nat) (v : ℚ) : Nat → Nat → List ℚ :=
  fun l2 g2 => if l2 = l ∧ g2 = g then f l2 g2 ++ [v] else f l2 g2

/-- The three output dictionaries `preds`, `preds_upper`, `preds_lower` of
`predict`, keyed by (location, group). -/
structure PredMaps : Type where
  preds : Loc × Grp → Option ℚ
  preds_upper : Loc × Grp → Option ℚ
  preds_lower : Loc × Grp → Option ℚ

/-- The empty dictionaries created at regression.py line 365. -/
def emptyPredMaps : PredMaps :=
  { preds := fun _ => none, preds_upper := fun _ => none, preds_lower := fun _ => none }

/-- One collection write of `predict`'s first per-pair loop (regression.py
lines 408-425): append the three single-sample predictions of pair (l, g). -/
def collect_step (vmid vup vlo : Nat → Nat → ℚ) (l : Nat) (c : CurPreds) (g : Nat) :
    CurPreds :=
  { preds := appendAt c.preds l g (vmid l g)
    preds_upper := appendAt c.preds_upper l g (vup l g)
    preds_lower := appendAt c.preds_lower l g (vlo l g) }

/-- The collection loop of `predict`'s first per-pair double loop. -/
def collect_loop (nL nG : Nat) (vmid vup vlo : Nat → Nat → ℚ) : CurPreds :=
  (List.range nL).foldl (fun (c : CurPreds) l =>
    (List.range nG).foldl (collect_step vmid vup vlo l) c)
    ⟨create_double_list [] nL nG, create_double_list [] nL nG, create_double_list [] nL nG⟩

/-- One assignment of `predict`'s second per-pair loop (regression.py lines
427-435): set the three dictionaries at key (location, group). -/
def assign_step (locations : List Loc) (groups : List Grp)
    (v1 v2 v3 : Nat → Nat → ℚ) (l : Nat) (m : PredMaps) (g : Nat) : PredMaps :=
  { preds := updOption m.preds
      (locations.getD l defaultLoc, groups.getD g defaultGrp) (v1 l g)
    preds_upper := updOption m.preds_upper
      (locations.getD l defaultLoc, groups.getD g defaultGrp) (v2 l g)
    preds_lower := updOption m.preds_lower
      (locations.getD l defaultLoc, groups.getD g defaultGrp) (v3 l g) }

/-- The assignment loops writing into `preds`, `preds_upper`, `preds_lower`
(regression.py lines 427-435 and, in the spec's direct formulation, the
final per-pair mapping): for every index pair set
`maps[(location, group)] = value`. -/
def assign_loop (locations : List Loc) (groups : List Grp)
    (v1 v2 v3 : Nat → Nat → ℚ) (acc : PredMaps) : PredMaps :=
  (List.range locations.length).foldl (fun (m : PredMaps) l =>
    (List.range groups.length).foldl (assign_step locations groups v1 v2 v3 l) m) acc

/-- The body of `predict` for one (location-grouping, age-grouping) pair
(regression.py lines 367-435): sweep the candidate windows, retrain on the
validation period with the selected window, fetch the target-epiweek feature
vector for every pair (with no data-membership test), collect the
single-sample predictions, and assign them into the output dictionaries. -/
def predict_pair (env : Env) (epiweek : Epiweek) (val_period : TimePeriod)
    (locations : List Loc) (groups : List Grp) (max_window : Nat)
    (mode model_type : String) (acc : PredMaps) : Except String PredMaps := do
  let sel ← predict_sweep env locations groups val_period mode model_type max_window
  -- use validation period (i.e. the latest) to train the model
  let XY := env.prepare locations groups [val_period] 0 sel.1 0 sel.1
  let ms ← train_model env XY.1 XY.2 model_type
  let collected := collect_loop locations.length groups.length
    (fun l g => ms.2.1 (env.fetch (locations.getD l defaultLoc)
      (groups.getD g defaultGrp) epiweek 0 sel.1 0 sel.1).1)
    (fun l g => ms.1 (env.fetch (locations.getD l defaultLoc)
      (groups.getD g defaultGrp) epiweek 0 sel.1 0 sel.1).1)
    (fun l g => ms.2.2 (env.fetch (locations.getD l defaultLoc)
      (groups.getD g defaultGrp) epiweek 0 sel.1 0 sel.1).1)
  pure (assign_loop locations groups
    (fun l g => (collected.preds l g).getD 0 0)
    (fun l g => (collected.preds_upper l g).getD 0 0)
    (fun l g => (collected.preds_lower l g).getD 0 0) acc)

/-- Embedding of `predict` (regression.py lines 334-437). -/
def predict (env : Env) (epiweek : Epiweek) (location_groups : List (List Loc))
    (groupings : List (List Grp)) (max_window : Nat) (mode model_type : String) :
    Except String PredMaps :=
  let start_year := env.getStartYear epiweek
  let maxW := min max_window (env.getMaxWindow epiweek)
  let val_period := env.getPeriod (start_year - 1) 40 17
  (List.range location_groups.length).foldlM (fun (acc : PredMaps) lg_idx =>
    (List.range groupings.length).foldlM (fun (acc : PredMaps) gp_idx =>
      predict_pair env epiweek val_period (location_groups.getD lg_idx [])
        (groupings.getD gp_idx []) maxW mode model_type acc) acc)
    emptyPredMaps

/-- Modelled from the spec (§4.5): score every candidate window in
increasing order; a scoring failure (the Validator's exceptions in the
source) propagates. -/
def score_all (f : Nat → Except String ℚ) : List Nat → Except String (List ℚ)
  | [] => .ok []
  | w :: ws => f w >>= fun q => score_all f ws >>= fun qs => .ok (q :: qs)

/-- Modelled from the spec (§4.5), for refinement comparison with
`predict_pair`: score every candidate window with the Validator, select by
the first-strict-improvement rule over best = 0.0, retrain the Model Triple
on the validation period with the selected window for both left and backfill
windows, then map every (location, group) pair directly to its single-sample
prediction triple obtained by fetching the feature vector for the exact
target epiweek. -/
def predictSpecPair (env : Env) (epiweek : Epiweek) (val_period : TimePeriod)
    (locations : List Loc) (groups : List Grp) (max_window : Nat)
    (mode model_type : String) (acc : PredMaps) : Except String PredMaps := do
  let scores ← score_all (scoreAt env locations groups val_period mode model_type)
    (List.range (max_window + 1))
  let sel := ((List.range (max_window + 1)).zip scores).foldl
    (fun (best : Nat × ℚ) cand => if cand.2 > best.2 then cand else best) (0, (0 : ℚ))
  let XY := env.prepare locations groups [val_period] 0 sel.1 0 sel.1
  let ms ← train_model env XY.1 XY.2 model_type
  pure (assign_loop locations groups
    (fun l g => ms.2.1 (env.fetch (locations.getD l defaultLoc)
      (groups.getD g defaultGrp) epiweek 0 sel.1 0 sel.1).1)
    (fun l g => ms.1 (env.fetch (locations.getD l defaultLoc)
      (groups.getD g defaultGrp) epiweek 0 sel.1 0 sel.1).1)
    (fun l g => ms.2.2 (env.fetch (locations.getD l defaultLoc)
      (groups.getD g defaultGrp) epiweek 0 sel.1 0 sel.1).1) acc)

/-- Modelled from the spec (§4.5), for refinement comparison with `predict`:
the hyperparameter sweep ranges over windows `0` to `min(max_window,
calendar-derived max window for this epiweek)`, the validation period is the
prior season spanning weeks 40 → 17, and each (location-grouping,
age-grouping) pair contributes its prediction triples to the shared output
mappings. -/
def predictSpec (env : Env) (epiweek : Epiweek) (location_groups : List (List Loc))
    (groupings : List (List Grp)) (max_window : Nat) (mode model_type : String) :
    Except String PredMaps :=
  let start_year := env.getStartYear epiweek
  let maxW := min max_window (env.getMaxWindow epiweek)
  let val_period := env.getPeriod (start_year - 1) 40 17
  (List.range location_groups.length).foldlM (fun (acc : PredMaps) lg_idx =>
    (List.range groupings.length).foldlM (fun (acc : PredMaps) gp_idx =>
      predictSpecPair env epiweek val_period (location_groups.getD lg_idx [])
        (groupings.getD gp_idx []) maxW mode model_type acc) acc)
    emptyPredMaps

/-- Propositional post-condition on the success branch of an `Except`
computation (the error branch carries no result to constrain). -/
def onOk {ε α : Type} (e : Except ε α) (p : α → Prop) : Prop :=
  match e with
  | .ok a => p a
  | .error _ => True

/-- Boolean success test for an `Except` computation. -/
def isOkB {ε α : Type} (e : Except ε α) : Bool :=
  match e with
  | .ok _ => true
  | .error _ => false

/-- All three output dictionaries of `predict` carry a value at key `k`. -/
def allSome (m : PredMaps) (k : Loc × Grp) : Prop :=
  (m.preds k).isSome = true ∧ (m.preds_upper k).isSome = true ∧
    (m.preds_lower k).isSome = true

/-- Boolean test that a penalized score evaluated successfully to a
non-positive rational. -/
def scoreLE (e : Except String ℚ) : Bool :=
  match e with
  | .ok q => decide (q ≤ 0)
  | .error _ => false

/-- The `"all"` training mode tag. -/
def modeAll : String := "all"

/-- The `"lin"` model-type tag. -/
def tagLin : String := "lin"

/-- An unrecognized model-type tag used as concrete witness input. -/
def tagSVM : String := "svm"

/-- Concrete location codes for witness environments. -/
def locX : Loc := "x"

/-- Concrete location codes for witness environments. -/
def locA : Loc := "A"

/-- Concrete location codes for witness environments. -/
def locB : Loc := "B"

/-- Error message of the modelled sklearn `r2_score` on empty input (sklearn
raises `ValueError` when given zero samples). -/
def msgR2 : String := "r2_score: 0 samples"

/-- A small concrete environment: every (epiweek, group, location) key is
present, features and targets are 0, models predict their feature, the
metrics always succeed, and the calendar is trivial. -/
def env0 : Env :=
  { mem := fun _ _ _ => true
    fetch := fun _ _ _ _ _ _ _ => (0, 0, 0)
    prepare := fun _ _ _ _ _ _ _ => (0, 0)
    fit := fun _ _ _ _ x => x
    getStartYear := fun _ => 2011
    getPeriod := fun _ _ _ => (1, 1)
    getMaxWindow := fun _ => 3
    unravel := fun tp => [tp.1, tp.2]
    r2Score := fun _ _ => .ok 1
    mseScore := fun _ _ => .ok 0
    firstYear := 2011
    yearWindow := 5
    penalty := 1 / 25 }

/-- Environment whose penalized scores are all `0`: no candidate beats the
initial best of `0.0`. -/
def envC1w : Env :=
  { env0 with r2Score := fun _ _ => .ok 0, penalty := 0 }

/-- Environment whose penalized scores are all `1/10`: window 0 beats `0.0`
and window 1 ties without updating. -/
def envC1a : Env :=
  { env0 with unravel := fun _ => [1], r2Score := fun _ _ => .ok (1 / 10), penalty := 0 }

/-- Score table realizing the synthetic penalized-score sequence
`[0.1, 0.05, 0.3, 0.25]`, indexed by the candidate window (which the
environment threads through the feature matrix into the predictions). -/
def scoreOfC1 (q : ℚ) : ℚ :=
  if q = 0 then 1 / 10 else if q = 1 then 1 / 20 else if q = 2 then 3 / 10 else 1 / 4

/-- Environment realizing the synthetic penalized-score sequence
`[0.1, 0.05, 0.3, 0.25]` for windows `[0, 1, 2, 3]`: the feature matrix
carries the candidate window, the fitted model predicts it, and the metric
maps it through `scoreOfC1`. -/
def envC1b : Env :=
  { env0 with
    unravel := fun _ => [1]
    prepare := fun _ _ _ _ lw _ _ => ((lw : ℚ), 0)
    fit := fun _ _ X _ _ => X
    r2Score := fun _ pr => .ok (scoreOfC1 (pr.getD 0 0))
    penalty := 0 }

/-- Environment with two locations whose R² metrics differ: location `A`
always scores `5`, location `B` always scores `3`.  The fitted model
predicts its feature, and the metric reports the first prediction. -/
def envC6 : Env :=
  { env0 with
    unravel := fun _ => [1]
    fetch := fun loc _ _ _ _ _ _ => if loc = locA then (5, 5, 5) else (3, 3, 3)
    r2Score := fun _ pr => .ok (pr.getD 0 0) }

/-- Environment in which no (epiweek, group, location) key is present, so
every per-pair series is empty and the modelled sklearn `r2_score` fails on
the empty input. -/
def envC8 : Env :=
  { env0 with
    mem := fun _ _ _ => false
    r2Score := fun gt _ => if gt.isEmpty then .error msgR2 else .ok 0 }

/-- Invariant preservation through a monadic fold over `Except`: if the
initial state satisfies `P` and every successful step preserves `P`, the
final state of a successful fold satisfies `P`. -/
theorem foldlM_ok_inv {ε σ α : Type} (P : σ → Prop) (f : σ → α → Except ε σ) :
    ∀ (l : List α) (s : σ), P s →
      (∀ s a s2, a ∈ l → P s → f s a = .ok s2 → P s2) →
      ∀ s2, l.foldlM f s = .ok s2 → P s2 := by
  intro l
  induction l with
  | nil =>
    intro s hs _ s2 hfold
    have hss : s = s2 := by
      simpa [List.foldlM, pure, Except.pure] using hfold
    exact hss ▸ hs
  | cons a l ih =>
    intro s hs hstep s2 hfold
    rw [List.foldlM_cons] at hfold
    cases hfa : f s a with
    | error e => rw [hfa] at hfold; exact absurd hfold (by simp [Bind.bind, Except.bind])
    | ok s1 =>
      rw [hfa] at hfold
      have hbind : l.foldlM f s1 = .ok s2 := hfold
      exact ih s1 (hstep s a s1 (by simp) hs hfa)
        (fun s a2 s3 ha2 => hstep s a2 s3 (by simp [ha2])) s2 hbind

/-- Element-wise post-condition through a monadic fold over `Except`: if
every successful step establishes `Q` for its own element and every step
preserves `Q` for all elements, a successful fold satisfies `Q a` for every
element `a` of the list. -/
theorem foldlM_ok_mem {ε σ α : Type} (Q : α → σ → Prop) (f : σ → α → Except ε σ)
    (hpres : ∀ s a s2 b, f s a = .ok s2 → Q b s → Q b s2)
    (hset : ∀ s a s2, f s a = .ok s2 → Q a s2) :
    ∀ (l : List α) (s s2 : σ), l.foldlM f s = .ok s2 → ∀ a ∈ l, Q a s2 := by
  intro l
  induction l with
  | nil => intro s s2 _ a ha; exact absurd ha (by simp)
  | cons b l ih =>
    intro s s2 hfold a ha
    rw [List.foldlM_cons] at hfold
    cases hfb : f s b with
    | error e => rw [hfb] at hfold; exact absurd hfold (by simp [Bind.bind, Except.bind])
    | ok s1 =>
      rw [hfb] at hfold
      have hbind : l.foldlM f s1 = .ok s2 := hfold
      rcases List.mem_cons.mp ha with rfl | hmem
      · exact foldlM_ok_inv (Q a) f l s1 (hset s a s1 hfb)
          (fun s3 c s4 _ hq hfc => hpres s3 c s4 a hfc hq) s2 hbind
      · exact ih s1 s2 hbind a hmem

/-- Equal folds from pointwise-equal step functions on the list's members. -/
theorem foldl_congr_mem {σ α : Type} (f g : σ → α → σ) :
    ∀ (l : List α) (s : σ), (∀ s2 a, a ∈ l → f s2 a = g s2 a) →
      l.foldl f s = l.foldl g s := by
  intro l
  induction l with
  | nil => intro s _; rfl
  | cons a l ih =>
    intro s h
    rw [List.foldl_cons, List.foldl_cons, h s a (by simp)]
    exact ih (g s a) (fun s2 b hb => h s2 b (by simp [hb]))

/-- On any recognized model-type tag, `train_model` succeeds with the three
fitted estimators. -/
theorem train_model_ok_of_mem (env : Env) (X Y : ℚ) (mt : String)
    (hmt : mt ∈ recognized_model_types) :
    train_model env X Y mt =
      .ok (env.fit mt QLevel.upper X Y, env.fit mt QLevel.mid X Y,
        env.fit mt QLevel.lower X Y) := by
  simp only [recognized_model_types, List.mem_cons, List.not_mem_nil, or_false] at hmt
  rcases hmt with rfl | rfl | rfl | rfl | rfl | rfl <;> simp +decide [train_model]

/-- Unfolding of `validate` into its training call and epiweek sweep. -/
theorem validate_eq (env : Env) (locations : List Loc) (groups : List Grp)
    (tp : TimePeriod) (lag lw rw bw : Nat) (mode mt : String) :
    validate env locations groups tp lag lw rw bw mode mt =
      (train_model env
        (env.prepare locations groups (model_periods env mode (env.getStartYear tp.1))
          lag lw rw bw).1
        (env.prepare locations groups (model_periods env mode (env.getStartYear tp.1))
          lag lw rw bw).2 mt).bind
        (fun ms => .ok ((env.unravel tp).foldl
          (validateStep env ms.1 ms.2.1 ms.2.2 locations groups lag lw rw bw)
          (validateInit locations.length groups.length))) := rfl

/-- Any post-condition holding of the epiweek sweep for arbitrary fitted
models holds of a successful `validate`. -/
theorem validate_post (env : Env) (locations : List Loc) (groups : List Grp)
    (tp : TimePeriod) (lag lw rw bw : Nat) (mode mt : String)
    (P : ValidateResult → Prop)
    (h : ∀ mu m ml : ℚ → ℚ, P ((env.unravel tp).foldl
      (validateStep env mu m ml locations groups lag lw rw bw)
      (validateInit locations.length groups.length))) :
    onOk (validate env locations groups tp lag lw rw bw mode mt) P := by
  rw [validate_eq]
  generalize env.prepare locations groups (model_periods env mode (env.getStartYear tp.1))
    lag lw rw bw = XY
  cases htm : train_model env XY.1 XY.2 mt with
  | error e => simp [onOk, Except.bind]
  | ok ms => simpa [onOk, Except.bind] using h ms.1 ms.2.1 ms.2.2

/-- C3: for every input (X, Y) and every model-type tag outside the
recognized set {lin, ridge, gbdt, quant_lin, quant_ridge, quant_gbdt},
`train_model` fails immediately with an invalid-configuration error and
never silently falls back to a default model. -/
theorem train_model_rejects_unknown_tag :
    ∀ (env : Env) (X Y : ℚ) (model_type : String),
      model_type ∉ recognized_model_types →
      train_model env X Y model_type = .error invalid_model_type_msg := by
  intro env X Y mt hmt
  simp only [recognized_model_types, List.mem_cons, List.not_mem_nil, or_false,
    not_or] at hmt
  obtain ⟨h1, h2, h3, h4, h5, h6⟩ := hmt
  simp [train_model, h1, h2, h3, h4, h5, h6]

/-- Witness for C3 at the concrete unrecognized tag `"svm"`. -/
theorem train_model_rejects_unknown_tag_witness :
    tagSVM ∉ recognized_model_types ∧
    train_model env0 0 0 tagSVM = .error invalid_model_type_msg :=
  ⟨by decide, train_model_rejects_unknown_tag env0 0 0 tagSVM (by decide)⟩

/-- C5 counterexample: with `start_year = FIRST_YEAR` in mode `"all"` the
training-period set is empty, yet `validate` returns a result instead of
raising an empty-input error: the Model Factory is invoked on the feature
matrix built from the empty period list. -/
theorem validate_no_empty_guard_counterexample :
    model_periods env0 modeAll (env0.getStartYear 1) = [] ∧
    isOkB (validate env0 [locX] [0] (1, 2) 0 0 0 0 modeAll tagLin) = true := by
  norm_num +decide [isOkB, validate, validateStep, validateInit, model_periods, intRange,
    train_model, create_double_list, pairHit, env0, modeAll, tagLin, locX,
    List.range_succ, bind, Except.bind, pure, Except.pure, defaultLoc, defaultGrp]

/-- C5 (amended): `validate` performs no empty-training-set guard: whenever
the mode is `"all"` and the start year does not exceed `FIRST_YEAR`, the
training-period list is empty, and for every recognized model type
`validate` still returns a result, invoking the Model Factory on the
feature set built from the empty period list. -/
theorem validate_trains_on_empty_period_set :
    ∀ (env : Env) (locations : List Loc) (groups : List Grp) (tp : TimePeriod)
      (lag lw rw bw : Nat) (mt : String),
      mt ∈ recognized_model_types →
      env.getStartYear tp.1 ≤ env.firstYear →
      model_periods env modeAll (env.getStartYear tp.1) = [] ∧
      isOkB (validate env locations groups tp lag lw rw bw modeAll mt) = true := by
  intro env locations groups tp lag lw rw bw mt hmt hy
  constructor
  · have hz : (env.getStartYear tp.1 - env.firstYear).toNat = 0 :=
      Int.toNat_of_nonpos (by omega)
    simp [model_periods, modeAll, intRange, hz]
  · rw [validate_eq]
    rw [train_model_ok_of_mem env _ _ mt hmt]
    rfl

/-- Witness for the amended C5 at a concrete environment whose calendar
start year equals `FIRST_YEAR`. -/
theorem validate_trains_on_empty_period_set_witness :
    tagLin ∈ recognized_model_types ∧ env0.getStartYear 1 ≤ env0.firstYear ∧
    (model_periods env0 modeAll (env0.getStartYear 1) = [] ∧
      isOkB (validate env0 [locA] [0] (1, 2) 0 0 0 0 modeAll tagLin) = true) :=
  ⟨by decide, by decide,
    validate_trains_on_empty_period_set env0 [locA] [0] (1, 2) 0 0 0 0 tagLin
      (by decide) (by decide)⟩

/-- If every candidate score is defined and does not exceed the running
best, the sweep never updates its accumulator. -/
theorem predict_sweep_stays (env : Env) (locations : List Loc) (groups : List Grp)
    (vp : TimePeriod) (mode mt : String) :
    ∀ (ws : List Nat) (a : Nat) (c : ℚ),
      (∀ w ∈ ws, ∃ q, scoreAt env locations groups vp mode mt w = .ok q ∧ q ≤ c) →
      ws.foldlM (predict_sweep_step env locations groups vp mode mt) (a, c) =
        .ok (a, c) := by
  intro ws
  induction ws with
  | nil => intro a c _; rfl
  | cons w ws ih =>
    intro a c h
    obtain ⟨q, hq, hqle⟩ := h w (by simp)
    rw [List.foldlM_cons]
    have hnot : ¬ (q > c) := not_lt.mpr hqle
    simp only [predict_sweep_step, hq, bind, Except.bind, hnot, if_false, ite_false,
      reduceIte]
    exact ih a c (fun w2 hw2 => h w2 (by simp [hw2]))

/-- C1: in `predict`'s hyperparameter sweep, the selected window scans
candidates in increasing order with a running best score initialised to
`0.0`, updating only on a strictly larger penalized R² (ties never update);
if no candidate's penalized R² exceeds `0.0` the selected window is `0`
(first conjunct); a tie with the running best leaves the selection
unchanged (second conjunct, scores `[0.1, 0.1]`); and for the synthetic
penalized-score sequence `[0.1, 0.05, 0.3, 0.25]` over windows
`[0, 1, 2, 3]` the selected window is `2` (third conjunct). -/
theorem predict_sweep_selection_rule :
    (∀ (env : Env) (locations : List Loc) (groups : List Grp) (vp : TimePeriod)
       (mode mt : String) (max_window : Nat),
       (∀ w ∈ List.range (max_window + 1),
         scoreLE (scoreAt env locations groups vp mode mt w) = true) →
       predict_sweep env locations groups vp mode mt max_window = .ok (0, 0)) ∧
    predict_sweep envC1a [locX] [0] (1, 1) modeAll tagLin 1 = .ok (0, 1 / 10) ∧
    predict_sweep envC1b [locX] [0] (1, 1) modeAll tagLin 3 = .ok (2, 3 / 10) := by
  refine ⟨?_, ?_, ?_⟩
  · intro env locations groups vp mode mt maxW h
    apply predict_sweep_stays
    intro w hw
    have hs := h w hw
    cases hq : scoreAt env locations groups vp mode mt w with
    | error e => rw [hq] at hs; simp [scoreLE] at hs
    | ok q =>
      rw [hq] at hs
      simp only [scoreLE, decide_eq_true_eq] at hs
      exact ⟨q, rfl, hs⟩
  · norm_num [predict_sweep, predict_sweep_step, scoreAt, validate, validateStep,
      validateInit, model_periods, intRange, train_model, flatten_double_list,
      create_double_list, pairHit, envC1a, env0, modeAll, tagLin, locX,
      List.range_succ, bind, Except.bind, pure, Except.pure, defaultLoc, defaultGrp]
  · norm_num [predict_sweep, predict_sweep_step, scoreAt, validate, validateStep,
      validateInit, model_periods, intRange, train_model, flatten_double_list,
      create_double_list, pairHit, envC1b, env0, scoreOfC1, modeAll, tagLin, locX,
      List.range_succ, bind, Except.bind, pure, Except.pure, defaultLoc, defaultGrp]

/-- Witness for C1's general conjunct at a concrete environment whose
penalized scores are all `0` (none exceeds the initial best `0.0`). -/
theorem predict_sweep_selection_rule_witness :
    (∀ w ∈ List.range 2, scoreLE (scoreAt envC1w [locX] [0] (1, 1) modeAll tagLin w) = true) ∧
    predict_sweep envC1w [locX] [0] (1, 1) modeAll tagLin 1 = .ok (0, 0) := by
  have hscores : ∀ w ∈ List.range 2,
      scoreLE (scoreAt envC1w [locX] [0] (1, 1) modeAll tagLin w) = true := by
    norm_num [scoreLE, scoreAt, validate, validateStep, validateInit, model_periods,
      intRange, train_model, flatten_double_list, create_double_list, pairHit,
      envC1w, env0, modeAll, tagLin, locX, List.range_succ, bind, Except.bind, pure,
      Except.pure, defaultLoc, defaultGrp]
  exact ⟨hscores,
    predict_sweep_selection_rule.1 envC1w [locX] [0] (1, 1) modeAll tagLin 1 hscores⟩

/-- The epiweek sweep records every epiweek of the period in `valid_weeks`. -/
theorem validate_fold_weeks (env : Env) (mu m ml : ℚ → ℚ) (locations : List Loc)
    (groups : List Grp) (lag lw rw bw : Nat) :
    ∀ (period : List Epiweek) (acc : ValidateResult),
      ((period.foldl (validateStep env mu m ml locations groups lag lw rw bw)
        acc).valid_weeks) = acc.valid_weeks ++ period := by
  intro period
  induction period with
  | nil => intro acc; simp
  | cons e period ih =>
    intro acc
    rw [List.foldl_cons, ih]
    simp [validateStep]

/-- The epiweek sweep grows a pair's prediction sequence exactly at the
epiweeks whose (epiweek, group, location) key is in the data store. -/
theorem validate_fold_pred_lengths (env : Env) (mu m ml : ℚ → ℚ)
    (locations : List Loc) (groups : List Grp) (lag lw rw bw : Nat) :
    ∀ (period : List Epiweek) (acc : ValidateResult) (l g : Nat),
      ((period.foldl (validateStep env mu m ml locations groups lag lw rw bw)
          acc).predictions l g).length =
        (acc.predictions l g).length
          + (period.filter (fun ew => pairHit env locations groups ew l g)).length := by
  intro period
  induction period with
  | nil => intro acc l g; simp
  | cons e period ih =>
    intro acc l g
    rw [List.foldl_cons, ih]
    by_cases hp : pairHit env locations groups e l g
    · simp [validateStep, hp, List.filter_cons]
      omega
    · simp [validateStep, hp, List.filter_cons]

/-- C2: for every call to `validate`, every epiweek of the target period is
appended to `valid_weeks` whether or not any pair has data for it, while
each per-(location, group) prediction sequence grows exactly at the
epiweeks whose (epiweek, group, location) key is in the data store;
consequently `len(valid_weeks) ≥ len(predictions[l][g])` for every location
and group index. -/
theorem validate_weeks_vs_predictions :
    ∀ (env : Env) (locations : List Loc) (groups : List Grp) (tp : TimePeriod)
      (lag lw rw bw : Nat) (mode mt : String),
      onOk (validate env locations groups tp lag lw rw bw mode mt) (fun r =>
        r.valid_weeks = env.unravel tp ∧
        ∀ l g,
          (r.predictions l g).length =
            ((env.unravel tp).filter
              (fun ew => pairHit env locations groups ew l g)).length ∧
          (r.predictions l g).length ≤ r.valid_weeks.length) := by
  intro env locations groups tp lag lw rw bw mode mt
  apply validate_post
  intro mu m ml
  have hweeks := validate_fold_weeks env mu m ml locations groups lag lw rw bw
    (env.unravel tp) (validateInit locations.length groups.length)
  have hlen := validate_fold_pred_lengths env mu m ml locations groups lag lw rw bw
    (env.unravel tp) (validateInit locations.length groups.length)
  constructor
  · rw [hweeks]; simp [validateInit]
  · intro l g
    have h1 := hlen l g
    have hinit : ((validateInit locations.length groups.length).predictions l g).length = 0 :=
      rfl
    rw [hinit, Nat.zero_add] at h1
    refine ⟨h1, ?_⟩
    rw [h1, hweeks]
    have hinitw : (validateInit locations.length groups.length).valid_weeks = [] := rfl
    rw [hinitw, List.nil_append]
    exact List.length_filter_le _ _

/-- Invariant preservation through a pure fold. -/
theorem foldl_inv {σ α : Type} (P : σ → Prop) (f : σ → α → σ) :
    ∀ (l : List α) (s : σ), P s → (∀ s2 a, a ∈ l → P s2 → P (f s2 a)) →
      P (l.foldl f s) := by
  intro l
  induction l with
  | nil => intro s hs _; exact hs
  | cons a l ih =>
    intro s hs hstep
    rw [List.foldl_cons]
    exact ih (f s a) (hstep s a (by simp) hs)
      (fun s2 b hb => hstep s2 b (by simp [hb]))

/-- A write at one matrix coordinate leaves every other coordinate of every
pair's matrix unchanged. -/
theorem writeCell_other_coord (grid : PairGrid) (l g w b : Nat) (v : WithBot ℚ)
    (l2 g2 w2 b2 : Nat) (h : ¬(w2 = w ∧ b2 = b)) :
    writeCell grid l g w b v l2 g2 w2 b2 = grid l2 g2 w2 b2 := by
  unfold writeCell
  by_cases hp : l2 = l ∧ g2 = g
  · obtain ⟨hl, hg⟩ := hp
    subst hl; subst hg
    simp [h]
  · simp [hp]

/-- `record_report` writes only at matrix coordinate (window, backfill). -/
theorem record_report_other_coord (nL nG : Nat) (mseG rsqG : PairGrid)
    (window backfill : Nat) (rsq mse : MetricGrid) (l g w b : Nat)
    (h : ¬(w = window ∧ b = backfill)) :
    (record_report nL nG mseG rsqG window backfill rsq mse).1 l g w b = mseG l g w b ∧
    (record_report nL nG mseG rsqG window backfill rsq mse).2 l g w b = rsqG l g w b := by
  unfold record_report
  apply foldl_inv
    (fun (gg : PairGrid × PairGrid) =>
      gg.1 l g w b = mseG l g w b ∧ gg.2 l g w b = rsqG l g w b)
  · exact ⟨rfl, rfl⟩
  · intro gg l2 _ hgg
    apply foldl_inv
      (fun (gg : PairGrid × PairGrid) =>
        gg.1 l g w b = mseG l g w b ∧ gg.2 l g w b = rsqG l g w b)
    · exact hgg
    · intro gg2 g2 _ hgg2
      exact ⟨(writeCell_other_coord gg2.1 l2 g2 window backfill (mse l2 g2)
          l g w b h).trans hgg2.1,
        (writeCell_other_coord gg2.2 l2 g2 window backfill (rsq l2 g2)
          l g w b h).trans hgg2.2⟩

/-- C4: in `run_nowcast_experiment`'s window × backfill sweep, every matrix
cell with `backfill > window` or `window > max_window` is never written by
any report call and remains at the sentinel `-inf` (`⊥`); only cells with
`0 ≤ backfill ≤ window ≤ max_window` are populated. -/
theorem sweepGrid_triangular_sentinel :
    ∀ (env : Env) (locations : List Loc) (groups : List Grp) (period : TimePeriod)
      (max_window : Nat) (mode mt : String),
      onOk (sweepGrid env locations groups period max_window mode mt) (fun gg =>
        ∀ l g w b, w < b ∨ max_window < w →
          gg.1 l g w b = ⊥ ∧ gg.2 l g w b = ⊥) := by
  intro env locations groups period maxW mode mt
  unfold onOk
  cases hs : sweepGrid env locations groups period maxW mode mt with
  | error e => trivial
  | ok gg =>
    unfold sweepGrid at hs
    refine foldlM_ok_inv
      (fun (gg : PairGrid × PairGrid) =>
        ∀ l g w b, w < b ∨ maxW < w → gg.1 l g w b = ⊥ ∧ gg.2 l g w b = ⊥)
      _ _ _ ?_ ?_ gg hs
    · intro l g w b _
      exact ⟨rfl, rfl⟩
    · intro s window s2 hwin hP hstep
      have hwinle : window ≤ maxW := Nat.lt_succ_iff.mp (List.mem_range.mp hwin)
      refine foldlM_ok_inv
        (fun (gg : PairGrid × PairGrid) =>
          ∀ l g w b, w < b ∨ maxW < w → gg.1 l g w b = ⊥ ∧ gg.2 l g w b = ⊥)
        _ _ _ hP ?_ s2 hstep
      intro s3 backfill s4 hbf hP3 hstep3
      have hbfle : backfill ≤ window := Nat.lt_succ_iff.mp (List.mem_range.mp hbf)
      cases hrep : nowcast_report env locations groups period window backfill mode mt with
      | error e =>
        rw [hrep] at hstep3
        exact absurd hstep3 (by simp [Bind.bind, Except.bind])
      | ok rm =>
        rw [hrep] at hstep3
        have hs4 : s4 = record_report locations.length groups.length s3.1 s3.2
            window backfill rm.1 rm.2 := by
          simpa [Bind.bind, Except.bind, pure, Except.pure] using hstep3.symm
        subst hs4
        intro l g w b hbad
        have hne : ¬(w = window ∧ b = backfill) := by
          rintro ⟨rfl, rfl⟩
          rcases hbad with hlt | hlt
          · omega
          · omega
        have hother := record_report_other_coord locations.length groups.length
          s3.1 s3.2 window backfill rm.1 rm.2 l g w b hne
        rw [hother.1, hother.2]
        exact hP3 l g w b hbad

/-- Witness for C4 at a concrete run: the (window, backfill) = (0, 1) cell
of both matrices stays at the sentinel. -/
theorem sweepGrid_triangular_sentinel_witness :
    onOk (sweepGrid env0 [locX] [0] (1, 2) 1 modeAll tagLin) (fun gg =>
      gg.1 0 0 0 1 = ⊥ ∧ gg.2 0 0 0 1 = ⊥) := by
  have h := sweepGrid_triangular_sentinel env0 [locX] [0] (1, 2) 1 modeAll tagLin
  unfold onOk at h ⊢
  cases hs : sweepGrid env0 [locX] [0] (1, 2) 1 modeAll tagLin with
  | error e => trivial
  | ok gg =>
    rw [hs] at h
    exact h 0 0 0 1 (Or.inl (by omega))

/-- C9: in `run_nowcast_experiment`, each (location, group) pair owns its
own copy of the sentinel-filled metric matrix template, so writing a metric
cell for one pair leaves every other pair's matrix unchanged while the
written pair's cell takes the new value. -/
theorem writeCell_pair_isolation :
    ∀ (grid : PairGrid) (l g w b : Nat) (v : WithBot ℚ) (l2 g2 : Nat),
      l2 ≠ l ∨ g2 ≠ g →
      writeCell grid l g w b v l2 g2 = grid l2 g2 ∧
      writeCell grid l g w b v l g w b = v := by
  intro grid l g w b v l2 g2 h
  constructor
  · have hne : ¬(l2 = l ∧ g2 = g) := by tauto
    unfold writeCell
    simp [hne]
  · unfold writeCell
    simp

/-- Witness for C9: writing pair (0, 0) of a fresh template grid leaves
pair (1, 0) at its own untouched copy. -/
theorem writeCell_pair_isolation_witness :
    ((1 : Nat) ≠ 0 ∨ (0 : Nat) ≠ 0) ∧
    (writeCell (create_double_list mat_template 2 1) 0 0 0 0 ((1 : ℚ) : WithBot ℚ) 1 0 =
        create_double_list mat_template 2 1 1 0 ∧
      writeCell (create_double_list mat_template 2 1) 0 0 0 0 ((1 : ℚ) : WithBot ℚ) 0 0 0 0 =
        ((1 : ℚ) : WithBot ℚ)) :=
  ⟨Or.inl (by decide),
    writeCell_pair_isolation (create_double_list mat_template 2 1) 0 0 0 0
      ((1 : ℚ) : WithBot ℚ) 1 0 (Or.inl (by decide))⟩

/-- Unfolding of `nowcast_report` into its validation call and metric loop. -/
theorem nowcast_report_eq (env : Env) (locations : List Loc) (groups : List Grp)
    (tp : TimePeriod) (lw bw : Nat) (mode mt : String) :
    nowcast_report env locations groups tp lw bw mode mt =
      (validate env locations groups tp 0 lw 0 bw mode mt).bind (fun r =>
        (List.range locations.length).foldlM (fun (rm : MetricGrid × MetricGrid) l =>
          (List.range groups.length).foldlM (fun (rm : MetricGrid × MetricGrid) g =>
            (env.r2Score (r.ground_truth l g) (r.predictions l g)).bind (fun rsqv =>
              (env.mseScore (r.ground_truth l g) (r.predictions l g)).bind (fun msev =>
                .ok (setPairCell rm.1 l g ((rsqv : ℚ) : WithBot ℚ),
                  setPairCell rm.2 l g ((msev : ℚ) : WithBot ℚ))))) rm)
          (create_double_list ⊥ locations.length groups.length,
            create_double_list ⊥ locations.length groups.length)) := rfl

/-- C8 (amended): `nowcast_report` installs no per-pair error handling
around the metric computations: when the R² computation fails for the first
(location, group) pair, the whole report aborts with that error — no
sentinel cell is written and no further pair is processed. -/
theorem nowcast_report_metric_error_aborts :
    ∀ (env : Env) (locations : List Loc) (groups : List Grp) (tp : TimePeriod)
      (lw bw : Nat) (mode mt : String),
      0 < locations.length → 0 < groups.length →
      (match validate env locations groups tp 0 lw 0 bw mode mt with
       | .error e => nowcast_report env locations groups tp lw bw mode mt = .error e
       | .ok r =>
         match env.r2Score (r.ground_truth 0 0) (r.predictions 0 0) with
         | .error e => nowcast_report env locations groups tp lw bw mode mt = .error e
         | .ok _ => True) := by
  intro env locations groups tp lw bw mode mt hL hG
  cases hv : validate env locations groups tp 0 lw 0 bw mode mt with
  | error e =>
    rw [nowcast_report_eq, hv]
    rfl
  | ok r =>
    show match env.r2Score (r.ground_truth 0 0) (r.predictions 0 0) with
      | .error e => nowcast_report env locations groups tp lw bw mode mt = .error e
      | .ok _ => True
    cases hr2 : env.r2Score (r.ground_truth 0 0) (r.predictions 0 0) with
    | ok q => trivial
    | error e =>
      rw [nowcast_report_eq, hv]
      obtain ⟨n, hn⟩ := Nat.exists_eq_succ_of_ne_zero (Nat.pos_iff_ne_zero.mp hL)
      obtain ⟨m, hm⟩ := Nat.exists_eq_succ_of_ne_zero (Nat.pos_iff_ne_zero.mp hG)
      rw [hn, hm, List.range_succ_eq_map, List.range_succ_eq_map]
      simp [List.foldlM_cons, hr2, Bind.bind, Except.bind]

/-- Witness for the amended C8 at a concrete environment whose data store is
empty (every per-pair series is empty, and the modelled sklearn `r2_score`
fails on zero samples, as the real one does). -/
theorem nowcast_report_metric_error_aborts_witness :
    0 < ([locA, locB] : List Loc).length ∧ 0 < ([0] : List Grp).length ∧
    (match validate envC8 [locA, locB] [0] (1, 2) 0 0 0 0 modeAll tagLin with
     | .error e => nowcast_report envC8 [locA, locB] [0] (1, 2) 0 0 modeAll tagLin = .error e
     | .ok r =>
       match envC8.r2Score (r.ground_truth 0 0) (r.predictions 0 0) with
       | .error e => nowcast_report envC8 [locA, locB] [0] (1, 2) 0 0 modeAll tagLin = .error e
       | .ok _ => True) :=
  ⟨by decide, by decide,
    nowcast_report_metric_error_aborts envC8 [locA, locB] [0] (1, 2) 0 0 modeAll tagLin
      (by decide) (by decide)⟩

/-- C8 counterexample: with two locations and a degenerate (empty) ground
truth for the first pair, `nowcast_report` aborts with the metric error
instead of writing a sentinel for that pair and continuing with the
remaining (location, group) pairs. -/
theorem nowcast_report_abort_counterexample :
    nowcast_report envC8 [locA, locB] [0] (1, 2) 0 0 modeAll tagLin = .error msgR2 := by
  norm_num +decide [nowcast_report, validate, validateStep, validateInit, setPairCell,
    model_periods, intRange, train_model, flatten_double_list, create_double_list,
    pairHit, envC8, env0, modeAll, tagLin, locA, locB, List.range_succ, bind,
    Except.bind, pure, Except.pure, defaultLoc, defaultGrp]

/-- A fold of dictionary assignments leaves keys it never writes unchanged. -/
theorem foldl_updOption_untouched {κ β α : Type} [DecidableEq κ]
    (key : α → κ) (val : α → β) :
    ∀ (l : List α) (res : κ → Option β) (k : κ),
      (∀ a ∈ l, key a ≠ k) →
      (l.foldl (fun r a => updOption r (key a) (val a)) res) k = res k := by
  intro l
  induction l with
  | nil => intro res k _; rfl
  | cons a l ih =>
    intro res k h
    rw [List.foldl_cons, ih (updOption res (key a) (val a)) k
      (fun b hb => h b (by simp [hb]))]
    unfold updOption
    simp [Ne.symm (h a (by simp))]

/-- A fold of dictionary assignments over a list whose other elements write
different keys ends with `a0`'s key holding `a0`'s value. -/
theorem foldl_updOption_last {κ β α : Type} [DecidableEq κ] [DecidableEq α]
    (key : α → κ) (val : α → β) :
    ∀ (l : List α) (res : κ → Option β) (a0 : α), a0 ∈ l →
      (∀ a ∈ l, a ≠ a0 → key a ≠ key a0) →
      (l.foldl (fun r a => updOption r (key a) (val a)) res) (key a0) =
        some (val a0) := by
  intro l
  induction l with
  | nil => intro res a0 h _; exact absurd h (by simp)
  | cons a l ih =>
    intro res a0 hmem hinj
    rw [List.foldl_cons]
    by_cases hal : a0 ∈ l
    · exact ih (updOption res (key a) (val a)) a0 hal
        (fun b hb hne => hinj b (by simp [hb]) hne)
    · have ha : a = a0 := by
        rcases List.mem_cons.mp hmem with h | h
        · exact h.symm
        · exact absurd h hal
      subst ha
      rw [foldl_updOption_untouched key val l (updOption res (key a) (val a)) (key a)
        (fun b hb => hinj b (by simp [hb]) (by rintro rfl; exact hal hb))]
      unfold updOption
      simp

/-- C6 (amended): the results summary written at the end of
`run_nowcast_experiment` maps (period, group) to `np.amax` of the R² matrix
of the LAST location iterated for that group — later locations overwrite
earlier ones at the same key — and records no location identity. -/
theorem write_summary_records_last_location :
    ∀ (period : TimePeriod) (locations : List Loc) (groups : List Grp)
      (rsqResults : PairGrid) (max_window : Nat) (results : Summary) (g : Nat),
      g < groups.length → groups.Nodup → locations ≠ [] →
      write_summary period locations groups rsqResults max_window results
          (period, groups.getD g defaultGrp) =
        some (matMax (max_window + 1) (rsqResults (locations.length - 1) g)) := by
  intro period locations groups rsqResults maxW results g hg hnd hne
  obtain ⟨n, hn⟩ := Nat.exists_eq_succ_of_ne_zero
    (Nat.pos_iff_ne_zero.mp (List.length_pos.mpr hne))
  unfold write_summary
  rw [hn, List.range_succ, List.foldl_append, List.foldl_cons, List.foldl_nil]
  have hinj : ∀ g2 ∈ List.range groups.length, g2 ≠ g →
      (period, groups.getD g2 defaultGrp) ≠ (period, groups.getD g defaultGrp) := by
    intro g2 hg2 hne2 hkey
    have hg2lt := List.mem_range.mp hg2
    have heq : groups.getD g2 defaultGrp = groups.getD g defaultGrp := by
      simpa using congrArg Prod.snd hkey
    rw [List.getD_eq_getElem groups defaultGrp hg2lt,
      List.getD_eq_getElem groups defaultGrp hg] at heq
    exact hne2 ((List.Nodup.getElem_inj_iff hnd).mp heq)
  have hlast := foldl_updOption_last
    (fun g2 => (period, groups.getD g2 defaultGrp))
    (fun g2 => matMax (maxW + 1) (rsqResults n g2))
    (List.range groups.length)
    (List.foldl (fun res l => List.foldl
        (fun res g2 => updOption res (period, groups.getD g2 defaultGrp)
          (matMax (maxW + 1) (rsqResults l g2))) res (List.range groups.length))
      results (List.range n))
    g (List.mem_range.mpr hg) hinj
  simpa using hlast

/-- Witness for the amended C6 at concrete inputs with two locations and two
groups. -/
theorem write_summary_records_last_location_witness :
    (1 : Nat) < ([0, 1] : List Grp).length ∧ ([0, 1] : List Grp).Nodup ∧
    ([locA, locB] : List Loc) ≠ [] ∧
    write_summary (1, 2) [locA, locB] [0, 1] (create_double_list mat_template 2 2) 0
        (fun _ => none) ((1, 2), ([0, 1] : List Grp).getD 1 defaultGrp) =
      some (matMax 1 (create_double_list mat_template 2 2
        (([locA, locB] : List Loc).length - 1) 1)) :=
  ⟨by decide, by decide, by decide,
    write_summary_records_last_location (1, 2) [locA, locB] [0, 1]
      (create_double_list mat_template 2 2) 0 (fun _ => none) 1
      (by decide) (by decide) (by decide)⟩

/-- C6 counterexample: with two locations in one grouping, location `A`'s
R² matrix holds `5` while location `B`'s holds `3`; the summary records `3`
(the last location iterated), not the maximum `5` across the grid over all
locations, and the summary value carries no location. -/
theorem run_summary_not_global_max :
    (match sweepGrid envC6 [locA, locB] [0] (1, 2) 0 modeAll tagLin with
      | .ok gg => gg.2 0 0 0 0
      | .error _ => ⊥) = ((5 : ℚ) : WithBot ℚ) ∧
    (match run_nowcast_experiment envC6 [[locA, locB]] [[0]] [(1, 2)] 0 modeAll tagLin with
      | .ok res => res ((1, 2), 0)
      | .error _ => none) = some ((3 : ℚ) : WithBot ℚ) ∧
    ((3 : ℚ) : WithBot ℚ) ≠ ((5 : ℚ) : WithBot ℚ) := by
  refine ⟨?_, ?_, ?_⟩
  · norm_num +decide [sweepGrid, record_report, writeCell, mat_template, nowcast_report,
      setPairCell, validate, validateStep, validateInit, model_periods, intRange,
      train_model, flatten_double_list, create_double_list, pairHit, envC6, env0,
      modeAll, tagLin, locA, locB, List.range_succ, bind, Except.bind, pure,
      Except.pure, defaultLoc, defaultGrp]
  · norm_num +decide [run_nowcast_experiment, write_summary, matMax, updOption,
      sweepGrid, record_report, writeCell, mat_template, nowcast_report, setPairCell,
      validate, validateStep, validateInit, model_periods, intRange, train_model,
      flatten_double_list, create_double_list, pairHit, envC6, env0, modeAll, tagLin,
      locA, locB, List.range_succ, bind, Except.bind, pure, Except.pure,
      defaultLoc, defaultGrp]
  · intro h
    have : (3 : ℚ) = 5 := by exact_mod_cast h
    norm_num at this

/-- Bind on a successful `Except` computation. -/
theorem bind_ok_eq {ε α β : Type} (a : α) (f : α → Except ε β) :
    (Except.ok a >>= f) = f a := rfl

/-- Bind on a failed `Except` computation. -/
theorem bind_error_eq {ε α β : Type} (e : ε) (f : α → Except ε β) :
    ((Except.error e : Except ε α) >>= f) = .error e := rfl

/-- The interleaved sweep of `predict` computes the same selection as
scoring all candidate windows first and then folding the
first-strict-improvement rule over the (window, score) pairs. -/
theorem foldlM_sweep_eq_score_select (env : Env) (locations : List Loc)
    (groups : List Grp) (vp : TimePeriod) (mode mt : String) :
    ∀ (ws : List Nat) (acc : Nat × ℚ),
      ws.foldlM (predict_sweep_step env locations groups vp mode mt) acc =
        (match score_all (scoreAt env locations groups vp mode mt) ws with
         | .error e => .error e
         | .ok ss => .ok ((ws.zip ss).foldl
             (fun (best : Nat × ℚ) cand => if cand.2 > best.2 then cand else best)
             acc)) := by
  intro ws
  induction ws with
  | nil => intro acc; rfl
  | cons w ws ih =>
    intro acc
    rw [List.foldlM_cons]
    cases hs : scoreAt env locations groups vp mode mt w with
    | error e =>
      have hstep : predict_sweep_step env locations groups vp mode mt acc w =
          .error e := by
        simp [predict_sweep_step, hs, Bind.bind, Except.bind]
      rw [hstep, bind_error_eq]
      simp [score_all, hs, bind_error_eq, Bind.bind, Except.bind]
    | ok q =>
      by_cases hq : q > acc.2
      · have hstep : predict_sweep_step env locations groups vp mode mt acc w =
            .ok (w, q) := by
          simp [predict_sweep_step, hs, hq, Bind.bind, Except.bind, pure, Except.pure]
        rw [hstep, bind_ok_eq, ih (w, q)]
        cases hms : score_all (scoreAt env locations groups vp mode mt) ws with
        | error e => simp [score_all, hs, hms, bind_ok_eq, bind_error_eq]
        | ok ss =>
          simp only [score_all, hs, hms, bind_ok_eq, List.zip_cons_cons,
            List.foldl_cons]
          rw [if_pos hq]
      · have hstep : predict_sweep_step env locations groups vp mode mt acc w =
            .ok acc := by
          simp [predict_sweep_step, hs, hq, Bind.bind, Except.bind, pure, Except.pure]
        rw [hstep, bind_ok_eq, ih acc]
        cases hms : score_all (scoreAt env locations groups vp mode mt) ws with
        | error e => simp [score_all, hs, hms, bind_ok_eq, bind_error_eq]
        | ok ss =>
          simp only [score_all, hs, hms, bind_ok_eq, List.zip_cons_cons,
            List.foldl_cons]
          rw [if_neg hq]

/-- A collection write leaves every other cell unchanged. -/
theorem collect_step_ne (v1 v2 v3 : Nat → Nat → ℚ) (l : Nat) (c : CurPreds)
    (g l2 g2 : Nat) (h : ¬(l2 = l ∧ g2 = g)) :
    (collect_step v1 v2 v3 l c g).preds l2 g2 = c.preds l2 g2 ∧
    (collect_step v1 v2 v3 l c g).preds_upper l2 g2 = c.preds_upper l2 g2 ∧
    (collect_step v1 v2 v3 l c g).preds_lower l2 g2 = c.preds_lower l2 g2 := by
  simp [collect_step, appendAt, h]

/-- A row of collection writes for location index `l` leaves every cell of
a different location, or of a group index outside the row, unchanged. -/
theorem collect_row_untouched (v1 v2 v3 : Nat → Nat → ℚ) (l : Nat) :
    ∀ (gs : List Nat) (c : CurPreds) (l2 g2 : Nat), l2 ≠ l ∨ g2 ∉ gs →
      (gs.foldl (collect_step v1 v2 v3 l) c).preds l2 g2 = c.preds l2 g2 ∧
      (gs.foldl (collect_step v1 v2 v3 l) c).preds_upper l2 g2 = c.preds_upper l2 g2 ∧
      (gs.foldl (collect_step v1 v2 v3 l) c).preds_lower l2 g2 = c.preds_lower l2 g2 := by
  intro gs
  induction gs with
  | nil => intro c l2 g2 _; exact ⟨rfl, rfl, rfl⟩
  | cons g gs ih =>
    intro c l2 g2 h
    rw [List.foldl_cons]
    have hrest : l2 ≠ l ∨ g2 ∉ gs := by
      rcases h with h | h
      · exact Or.inl h
      · exact Or.inr (fun hmem => h (by simp [hmem]))
    have hne : ¬(l2 = l ∧ g2 = g) := by
      rcases h with h | h
      · tauto
      · intro hc; exact h (by simp [hc.2])
    have hstep := collect_step_ne v1 v2 v3 l c g l2 g2 hne
    have hih := ih (collect_step v1 v2 v3 l c g) l2 g2 hrest
    exact ⟨hih.1.trans hstep.1, hih.2.1.trans hstep.2.1, hih.2.2.trans hstep.2.2⟩

/-- A row of collection writes appends exactly one value at each of its own
cells. -/
theorem collect_row_cell (v1 v2 v3 : Nat → Nat → ℚ) (l : Nat) :
    ∀ (gs : List Nat) (c : CurPreds) (g : Nat), g ∈ gs → gs.Nodup →
      (gs.foldl (collect_step v1 v2 v3 l) c).preds l g = c.preds l g ++ [v1 l g] ∧
      (gs.foldl (collect_step v1 v2 v3 l) c).preds_upper l g =
        c.preds_upper l g ++ [v2 l g] ∧
      (gs.foldl (collect_step v1 v2 v3 l) c).preds_lower l g =
        c.preds_lower l g ++ [v3 l g] := by
  intro gs
  induction gs with
  | nil => intro c g h _; exact absurd h (by simp)
  | cons g0 gs ih =>
    intro c g hmem hnd
    obtain ⟨hg0, hndrest⟩ := List.nodup_cons.mp hnd
    rw [List.foldl_cons]
    by_cases hgg : g = g0
    · subst hgg
      have huntouched := collect_row_untouched v1 v2 v3 l gs
        (collect_step v1 v2 v3 l c g) l g (Or.inr hg0)
      have hself : (collect_step v1 v2 v3 l c g).preds l g = c.preds l g ++ [v1 l g] ∧
          (collect_step v1 v2 v3 l c g).preds_upper l g = c.preds_upper l g ++ [v2 l g] ∧
          (collect_step v1 v2 v3 l c g).preds_lower l g = c.preds_lower l g ++ [v3 l g] := by
        simp [collect_step, appendAt]
      exact ⟨huntouched.1.trans hself.1, huntouched.2.1.trans hself.2.1,
        huntouched.2.2.trans hself.2.2⟩
    · have hgs : g ∈ gs := by
        rcases List.mem_cons.mp hmem with h | h
        · exact absurd h hgg
        · exact h
      have hstep := collect_step_ne v1 v2 v3 l c g0 l g (by tauto)
      have hih := ih (collect_step v1 v2 v3 l c g0) g hgs hndrest
      exact ⟨hih.1.trans (by rw [hstep.1]), hih.2.1.trans (by rw [hstep.2.1]),
        hih.2.2.trans (by rw [hstep.2.2])⟩

/-- Rows of collection writes for other location indices leave a location's
cells unchanged. -/
theorem collect_outer_untouched (v1 v2 v3 : Nat → Nat → ℚ) (nG : Nat) :
    ∀ (ls : List Nat) (c : CurPreds) (l2 g2 : Nat), l2 ∉ ls →
      ((ls.foldl (fun (c : CurPreds) l =>
        (List.range nG).foldl (collect_step v1 v2 v3 l) c) c)).preds l2 g2 =
          c.preds l2 g2 ∧
      ((ls.foldl (fun (c : CurPreds) l =>
        (List.range nG).foldl (collect_step v1 v2 v3 l) c) c)).preds_upper l2 g2 =
          c.preds_upper l2 g2 ∧
      ((ls.foldl (fun (c : CurPreds) l =>
        (List.range nG).foldl (collect_step v1 v2 v3 l) c) c)).preds_lower l2 g2 =
          c.preds_lower l2 g2 := by
  intro ls
  induction ls with
  | nil => intro c l2 g2 _; exact ⟨rfl, rfl, rfl⟩
  | cons l0 ls ih =>
    intro c l2 g2 h
    rw [List.foldl_cons]
    have hl0 : l2 ≠ l0 := fun hc => h (by simp [hc])
    have hrow := collect_row_untouched v1 v2 v3 l0 (List.range nG) c l2 g2 (Or.inl hl0)
    have hih := ih ((List.range nG).foldl (collect_step v1 v2 v3 l0) c) l2 g2
      (fun hmem => h (by simp [hmem]))
    exact ⟨hih.1.trans hrow.1, hih.2.1.trans hrow.2.1, hih.2.2.trans hrow.2.2⟩

/-- Each in-range cell of the collection loop holds exactly the one value
collected for that (location, group) pair. -/
theorem collect_cell (nL nG : Nat) (v1 v2 v3 : Nat → Nat → ℚ) (l g : Nat)
    (hl : l < nL) (hg : g < nG) :
    (collect_loop nL nG v1 v2 v3).preds l g = [v1 l g] ∧
    (collect_loop nL nG v1 v2 v3).preds_upper l g = [v2 l g] ∧
    (collect_loop nL nG v1 v2 v3).preds_lower l g = [v3 l g] := by
  have hmain : ∀ (ls : List Nat) (c : CurPreds), l ∈ ls → ls.Nodup →
      ((ls.foldl (fun (c : CurPreds) l2 =>
        (List.range nG).foldl (collect_step v1 v2 v3 l2) c) c)).preds l g =
          c.preds l g ++ [v1 l g] ∧
      ((ls.foldl (fun (c : CurPreds) l2 =>
        (List.range nG).foldl (collect_step v1 v2 v3 l2) c) c)).preds_upper l g =
          c.preds_upper l g ++ [v2 l g] ∧
      ((ls.foldl (fun (c : CurPreds) l2 =>
        (List.range nG).foldl (collect_step v1 v2 v3 l2) c) c)).preds_lower l g =
          c.preds_lower l g ++ [v3 l g] := by
    intro ls
    induction ls with
    | nil => intro c h _; exact absurd h (by simp)
    | cons l0 ls ih =>
      intro c hmem hnd
      obtain ⟨hl0, hndrest⟩ := List.nodup_cons.mp hnd
      rw [List.foldl_cons]
      by_cases hll : l = l0
      · subst hll
        have huntouched := collect_outer_untouched v1 v2 v3 nG ls
          ((List.range nG).foldl (collect_step v1 v2 v3 l) c) l g hl0
        have hrow := collect_row_cell v1 v2 v3 l (List.range nG) c g
          (List.mem_range.mpr hg) (List.nodup_range nG)
        exact ⟨huntouched.1.trans hrow.1, huntouched.2.1.trans hrow.2.1,
          huntouched.2.2.trans hrow.2.2⟩
      · have hls : l ∈ ls := by
          rcases List.mem_cons.mp hmem with h | h
          · exact absurd h hll
          · exact h
        have hrow := collect_row_untouched v1 v2 v3 l0 (List.range nG) c l g
          (Or.inl hll)
        have hih := ih ((List.range nG).foldl (collect_step v1 v2 v3 l0) c) hls hndrest
        exact ⟨hih.1.trans (by rw [hrow.1]), hih.2.1.trans (by rw [hrow.2.1]),
          hih.2.2.trans (by rw [hrow.2.2])⟩
  have h := hmain (List.range nL) ⟨create_double_list [] nL nG,
    create_double_list [] nL nG, create_double_list [] nL nG⟩
    (List.mem_range.mpr hl) (List.nodup_range nL)
  unfold collect_loop
  simpa [create_double_list] using h

/-- Pointwise-equal per-pair values produce equal assignment loops. -/
theorem assign_loop_congr (locations : List Loc) (groups : List Grp)
    (v1 v2 v3 w1 w2 w3 : Nat → Nat → ℚ) (acc : PredMaps)
    (h : ∀ l g, l < locations.length → g < groups.length →
      v1 l g = w1 l g ∧ v2 l g = w2 l g ∧ v3 l g = w3 l g) :
    assign_loop locations groups v1 v2 v3 acc =
      assign_loop locations groups w1 w2 w3 acc := by
  unfold assign_loop
  apply foldl_congr_mem
  intro m l hl
  apply foldl_congr_mem
  intro m2 g hg
  have hv := h l g (List.mem_range.mp hl) (List.mem_range.mp hg)
  unfold assign_step
  rw [hv.1, hv.2.1, hv.2.2]

/-- Case form of the sweep/selection equivalence: a scoring failure makes
the sweep fail with the same error. -/
theorem sweep_select_error (env : Env) (locations : List Loc) (groups : List Grp)
    (vp : TimePeriod) (mode mt : String) (ws : List Nat) (acc : Nat × ℚ) (e : String)
    (h : score_all (scoreAt env locations groups vp mode mt) ws = .error e) :
    ws.foldlM (predict_sweep_step env locations groups vp mode mt) acc =
      .error e := by
  rw [foldlM_sweep_eq_score_select, h]

/-- Case form of the sweep/selection equivalence: with all scores available,
the sweep returns the first-strict-improvement selection. -/
theorem sweep_select_ok (env : Env) (locations : List Loc) (groups : List Grp)
    (vp : TimePeriod) (mode mt : String) (ws : List Nat) (acc : Nat × ℚ) (ss : List ℚ)
    (h : score_all (scoreAt env locations groups vp mode mt) ws = .ok ss) :
    ws.foldlM (predict_sweep_step env locations groups vp mode mt) acc =
      .ok ((ws.zip ss).foldl
        (fun (best : Nat × ℚ) cand => if cand.2 > best.2 then cand else best) acc) := by
  rw [foldlM_sweep_eq_score_select, h]

/-- Reading each in-range cell of the collection loop with `[0][0]` yields
the collected value itself, so the collector-then-assign pipeline equals
the direct assignment. -/
theorem predict_tail_collect_eq (locations : List Loc) (groups : List Grp)
    (f1 f2 f3 : Nat → Nat → ℚ) (acc : PredMaps) :
    assign_loop locations groups
      (fun l g => ((collect_loop locations.length groups.length f1 f2 f3).preds
        l g).getD 0 0)
      (fun l g => ((collect_loop locations.length groups.length f1 f2 f3).preds_upper
        l g).getD 0 0)
      (fun l g => ((collect_loop locations.length groups.length f1 f2 f3).preds_lower
        l g).getD 0 0)
      acc =
    assign_loop locations groups f1 f2 f3 acc := by
  apply assign_loop_congr
  intro l g hl hg
  have hc := collect_cell locations.length groups.length f1 f2 f3 l g hl hg
  exact ⟨by rw [hc.1]; rfl, by rw [hc.2.1]; rfl, by rw [hc.2.2]; rfl⟩

/-- After the selection, the retrain-collect-assign tail of `predict_pair`
equals the retrain-and-assign-directly tail of the spec's formulation, for
any selected (window, score) pair. -/
theorem predict_tail_eq (env : Env) (epiweek : Epiweek) (vp : TimePeriod)
    (locations : List Loc) (groups : List Grp) (_mode mt : String) (acc : PredMaps)
    (sel : Nat × ℚ) :
    ((train_model env (env.prepare locations groups [vp] 0 sel.1 0 sel.1).1
        (env.prepare locations groups [vp] 0 sel.1 0 sel.1).2 mt) >>= fun ms =>
      pure (assign_loop locations groups
        (fun l g => ((collect_loop locations.length groups.length
          (fun l g => ms.2.1 (env.fetch (locations.getD l defaultLoc)
            (groups.getD g defaultGrp) epiweek 0 sel.1 0 sel.1).1)
          (fun l g => ms.1 (env.fetch (locations.getD l defaultLoc)
            (groups.getD g defaultGrp) epiweek 0 sel.1 0 sel.1).1)
          (fun l g => ms.2.2 (env.fetch (locations.getD l defaultLoc)
            (groups.getD g defaultGrp) epiweek 0 sel.1 0 sel.1).1)).preds l g).getD 0 0)
        (fun l g => ((collect_loop locations.length groups.length
          (fun l g => ms.2.1 (env.fetch (locations.getD l defaultLoc)
            (groups.getD g defaultGrp) epiweek 0 sel.1 0 sel.1).1)
          (fun l g => ms.1 (env.fetch (locations.getD l defaultLoc)
            (groups.getD g defaultGrp) epiweek 0 sel.1 0 sel.1).1)
          (fun l g => ms.2.2 (env.fetch (locations.getD l defaultLoc)
            (groups.getD g defaultGrp) epiweek 0 sel.1 0 sel.1).1)).preds_upper
              l g).getD 0 0)
        (fun l g => ((collect_loop locations.length groups.length
          (fun l g => ms.2.1 (env.fetch (locations.getD l defaultLoc)
            (groups.getD g defaultGrp) epiweek 0 sel.1 0 sel.1).1)
          (fun l g => ms.1 (env.fetch (locations.getD l defaultLoc)
            (groups.getD g defaultGrp) epiweek 0 sel.1 0 sel.1).1)
          (fun l g => ms.2.2 (env.fetch (locations.getD l defaultLoc)
            (groups.getD g defaultGrp) epiweek 0 sel.1 0 sel.1).1)).preds_lower
              l g).getD 0 0)
        acc)) =
    ((train_model env (env.prepare locations groups [vp] 0 sel.1 0 sel.1).1
        (env.prepare locations groups [vp] 0 sel.1 0 sel.1).2 mt) >>= fun ms =>
      pure (assign_loop locations groups
        (fun l g => ms.2.1 (env.fetch (locations.getD l defaultLoc)
          (groups.getD g defaultGrp) epiweek 0 sel.1 0 sel.1).1)
        (fun l g => ms.1 (env.fetch (locations.getD l defaultLoc)
          (groups.getD g defaultGrp) epiweek 0 sel.1 0 sel.1).1)
        (fun l g => ms.2.2 (env.fetch (locations.getD l defaultLoc)
          (groups.getD g defaultGrp) epiweek 0 sel.1 0 sel.1).1)
        acc)) := by
  cases htm : train_model env (env.prepare locations groups [vp] 0 sel.1 0 sel.1).1
      (env.prepare locations groups [vp] 0 sel.1 0 sel.1).2 mt with
  | error e => rfl
  | ok ms =>
    simp only [bind_ok_eq]
    exact congrArg (fun m => (pure m : Except String PredMaps))
      (predict_tail_collect_eq locations groups
        (fun l g => ms.2.1 (env.fetch (locations.getD l defaultLoc)
          (groups.getD g defaultGrp) epiweek 0 sel.1 0 sel.1).1)
        (fun l g => ms.1 (env.fetch (locations.getD l defaultLoc)
          (groups.getD g defaultGrp) epiweek 0 sel.1 0 sel.1).1)
        (fun l g => ms.2.2 (env.fetch (locations.getD l defaultLoc)
          (groups.getD g defaultGrp) epiweek 0 sel.1 0 sel.1).1)
        acc)

/-- The source body of `predict` for one grouping pair equals the spec's
direct formulation. -/
theorem predict_pair_eq_spec :
    ∀ (env : Env) (epiweek : Epiweek) (vp : TimePeriod) (locations : List Loc)
      (groups : List Grp) (maxW : Nat) (mode mt : String) (acc : PredMaps),
      predict_pair env epiweek vp locations groups maxW mode mt acc =
        predictSpecPair env epiweek vp locations groups maxW mode mt acc := by
  intro env epiweek vp locations groups maxW mode mt acc
  unfold predict_pair predictSpecPair predict_sweep
  cases hms : score_all (scoreAt env locations groups vp mode mt)
      (List.range (maxW + 1)) with
  | error e =>
    rw [sweep_select_error env locations groups vp mode mt (List.range (maxW + 1))
      (0, (0 : ℚ)) e hms]
    simp only [bind_error_eq]
  | ok ss =>
    rw [sweep_select_ok env locations groups vp mode mt (List.range (maxW + 1))
      (0, (0 : ℚ)) ss hms]
    simp only [bind_ok_eq]
    generalize ((List.range (maxW + 1)).zip ss).foldl
        (fun (best : Nat × ℚ) cand => if cand.2 > best.2 then cand else best)
        (0, (0 : ℚ)) = sel
    exact predict_tail_eq env epiweek vp locations groups mode mt acc sel

/-- C7: `predict` refines the spec's description: it sweeps candidate
windows `0` to `min(max_window, calendar-derived max window)`, scores each
by running `validate` on the prior season's period (start year minus one,
weeks 40 through 17) with `lag = 0`, `right_window = 0`, and
`left_window = backfill_window = w`, selects by first strict improvement
over best `0.0`, retrains on that validation period with the selected
window for both left and backfill windows, and returns one scalar
(point, upper, lower) triple per (location, group). -/
theorem predict_refines_spec :
    ∀ (env : Env) (epiweek : Epiweek) (location_groups : List (List Loc))
      (groupings : List (List Grp)) (max_window : Nat) (mode model_type : String),
      predict env epiweek location_groups groupings max_window mode model_type =
        predictSpec env epiweek location_groups groupings max_window mode model_type := by
  intro env epiweek location_groups groupings max_window mode model_type
  simp only [predict, predictSpec, predict_pair_eq_spec]

/-- Element-wise post-condition through a pure fold. -/
theorem foldl_mem {σ α : Type} (Q : α → σ → Prop) (f : σ → α → σ)
    (hpres : ∀ s a b, Q b s → Q b (f s a)) (hset : ∀ s a, Q a (f s a)) :
    ∀ (l : List α) (s : σ), ∀ a ∈ l, Q a (l.foldl f s) := by
  intro l
  induction l with
  | nil => intro s a ha; exact absurd ha (by simp)
  | cons b l ih =>
    intro s a ha
    rw [List.foldl_cons]
    rcases List.mem_cons.mp ha with rfl | hmem
    · exact foldl_inv (Q a) f l (f s a) (hset s a)
        (fun s2 c _ hq => hpres s2 c a hq)
    · exact ih (f s b) a hmem

/-- Dictionary assignment preserves populated keys. -/
theorem updOption_isSome_pres {κ β : Type} [DecidableEq κ] (m : κ → Option β)
    (k k2 : κ) (v : β) (h : (m k2).isSome = true) :
    ((updOption m k v) k2).isSome = true := by
  unfold updOption
  by_cases hk : k2 = k <;> simp [hk, h]

/-- Dictionary assignment populates its own key. -/
theorem updOption_isSome_self {κ β : Type} [DecidableEq κ] (m : κ → Option β)
    (k : κ) (v : β) : ((updOption m k v) k).isSome = true := by
  simp [updOption]

/-- One assignment of `predict`'s output loop preserves populated keys. -/
theorem assign_step_pres (locations : List Loc) (groups : List Grp)
    (v1 v2 v3 : Nat → Nat → ℚ) (l : Nat) (m : PredMaps) (g : Nat) (k : Loc × Grp)
    (h : allSome m k) : allSome (assign_step locations groups v1 v2 v3 l m g) k :=
  ⟨updOption_isSome_pres _ _ _ _ h.1, updOption_isSome_pres _ _ _ _ h.2.1,
    updOption_isSome_pres _ _ _ _ h.2.2⟩

/-- One assignment of `predict`'s output loop populates its own key in all
three dictionaries. -/
theorem assign_step_sets (locations : List Loc) (groups : List Grp)
    (v1 v2 v3 : Nat → Nat → ℚ) (l : Nat) (m : PredMaps) (g : Nat) :
    allSome (assign_step locations groups v1 v2 v3 l m g)
      (locations.getD l defaultLoc, groups.getD g defaultGrp) :=
  ⟨updOption_isSome_self _ _ _, updOption_isSome_self _ _ _,
    updOption_isSome_self _ _ _⟩

/-- The whole assignment loop preserves populated keys. -/
theorem assign_loop_pres (locations : List Loc) (groups : List Grp)
    (v1 v2 v3 : Nat → Nat → ℚ) (acc : PredMaps) (k : Loc × Grp)
    (h : allSome acc k) : allSome (assign_loop locations groups v1 v2 v3 acc) k := by
  unfold assign_loop
  apply foldl_inv (fun m => allSome m k)
  · exact h
  · intro m l _ hm
    exact foldl_inv (fun m => allSome m k) _ _ m hm
      (fun m2 g _ hm2 => assign_step_pres locations groups v1 v2 v3 l m2 g k hm2)

/-- The assignment loop populates the key of every in-range index pair. -/
theorem assign_loop_sets (locations : List Loc) (groups : List Grp)
    (v1 v2 v3 : Nat → Nat → ℚ) (acc : PredMaps) (l g : Nat)
    (hl : l < locations.length) (hg : g < groups.length) :
    allSome (assign_loop locations groups v1 v2 v3 acc)
      (locations.getD l defaultLoc, groups.getD g defaultGrp) := by
  unfold assign_loop
  refine foldl_mem
    (fun l2 (m : PredMaps) => ∀ g2, g2 < groups.length →
      allSome m (locations.getD l2 defaultLoc, groups.getD g2 defaultGrp))
    _ ?_ ?_ (List.range locations.length) acc l (List.mem_range.mpr hl) g hg
  · intro m l2 b hb g2 hg2
    exact foldl_inv
      (fun m => allSome m (locations.getD b defaultLoc, groups.getD g2 defaultGrp))
      _ _ m (hb g2 hg2)
      (fun m2 g3 _ hm2 =>
        assign_step_pres locations groups v1 v2 v3 l2 m2 g3 _ hm2)
  · intro m l2 g2 hg2
    exact foldl_mem
      (fun g3 (m : PredMaps) =>
        allSome m (locations.getD l2 defaultLoc, groups.getD g3 defaultGrp))
      _
      (fun m2 g3 b hm2 => assign_step_pres locations groups v1 v2 v3 l2 m2 g3 _ hm2)
      (fun m2 g3 => assign_step_sets locations groups v1 v2 v3 l2 m2 g3)
      (List.range groups.length) m g2 (List.mem_range.mpr hg2)

/-- A successful `predict_pair` produces an assignment loop over its input
dictionaries. -/
theorem predict_pair_ok_assign :
    ∀ (env : Env) (epiweek : Epiweek) (vp : TimePeriod) (locations : List Loc)
      (groups : List Grp) (maxW : Nat) (mode mt : String) (acc res : PredMaps),
      predict_pair env epiweek vp locations groups maxW mode mt acc = .ok res →
      ∃ v1 v2 v3, res = assign_loop locations groups v1 v2 v3 acc := by
  intro env epiweek vp locations groups maxW mode mt acc res h
  unfold predict_pair at h
  cases hsw : predict_sweep env locations groups vp mode mt maxW with
  | error e =>
    rw [hsw] at h
    exact absurd h (by simp [bind_error_eq])
  | ok sel =>
    rw [hsw] at h
    simp only [bind_ok_eq] at h
    cases htm : train_model env
        (env.prepare locations groups [vp] 0 sel.1 0 sel.1).1
        (env.prepare locations groups [vp] 0 sel.1 0 sel.1).2 mt with
    | error e =>
      rw [htm] at h
      exact absurd h (by simp [bind_error_eq])
    | ok ms =>
      rw [htm] at h
      simp only [bind_ok_eq, pure, Except.pure, Except.ok.injEq] at h
      exact ⟨_, _, _, h.symm⟩

/-- A successful `predict_pair` preserves populated keys. -/
theorem predict_pair_mono :
    ∀ (env : Env) (epiweek : Epiweek) (vp : TimePeriod) (locations : List Loc)
      (groups : List Grp) (maxW : Nat) (mode mt : String) (acc res : PredMaps)
      (k : Loc × Grp),
      predict_pair env epiweek vp locations groups maxW mode mt acc = .ok res →
      allSome acc k → allSome res k := by
  intro env epiweek vp locations groups maxW mode mt acc res k h hk
  obtain ⟨v1, v2, v3, rfl⟩ := predict_pair_ok_assign env epiweek vp locations groups
    maxW mode mt acc res h
  exact assign_loop_pres locations groups v1 v2 v3 acc k hk

/-- A successful `predict_pair` populates the key of every in-range pair of
its locations and groups. -/
theorem predict_pair_sets :
    ∀ (env : Env) (epiweek : Epiweek) (vp : TimePeriod) (locations : List Loc)
      (groups : List Grp) (maxW : Nat) (mode mt : String) (acc res : PredMaps)
      (l g : Nat),
      predict_pair env epiweek vp locations groups maxW mode mt acc = .ok res →
      l < locations.length → g < groups.length →
      allSome res (locations.getD l defaultLoc, groups.getD g defaultGrp) := by
  intro env epiweek vp locations groups maxW mode mt acc res l g h hl hg
  obtain ⟨v1, v2, v3, rfl⟩ := predict_pair_ok_assign env epiweek vp locations groups
    maxW mode mt acc res h
  exact assign_loop_sets locations groups v1 v2 v3 acc l g hl hg

/-- C10: unlike `validate`, `predict` fetches the target-epiweek feature
vector for every (location, group) pair of the supplied groupings without
first testing membership of (epiweek, group, location) in the data store
(the statement quantifies over every environment, including those whose
membership predicate rejects everything at the target week); consequently
every such pair appears as a key of all three returned mappings, and a
missing observation is never silently skipped. -/
theorem predict_outputs_every_pair :
    ∀ (env : Env) (epiweek : Epiweek) (location_groups : List (List Loc))
      (groupings : List (List Grp)) (max_window : Nat) (mode model_type : String),
      onOk (predict env epiweek location_groups groupings max_window mode model_type)
        (fun maps => ∀ locations ∈ location_groups, ∀ groups ∈ groupings,
          ∀ loc ∈ locations, ∀ grp ∈ groups, allSome maps (loc, grp)) := by
  intro env ew lgs gps maxW mode mt
  unfold onOk
  cases hp : predict env ew lgs gps maxW mode mt with
  | error e => trivial
  | ok maps =>
    intro locations hlocs groups hgps loc hloc grp hgrp
    obtain ⟨li, hli, hlieq⟩ := List.getElem_of_mem hlocs
    obtain ⟨gi, hgi, hgieq⟩ := List.getElem_of_mem hgps
    obtain ⟨l, hl, hleq⟩ := List.getElem_of_mem hloc
    obtain ⟨g, hg, hgeq⟩ := List.getElem_of_mem hgrp
    simp only [predict] at hp
    have houter := foldlM_ok_mem
      (fun lg_idx (s : PredMaps) => ∀ gp_idx, gp_idx < gps.length →
        ∀ l2 g2, l2 < (lgs.getD lg_idx []).length →
          g2 < (gps.getD gp_idx []).length →
          allSome s ((lgs.getD lg_idx []).getD l2 defaultLoc,
            (gps.getD gp_idx []).getD g2 defaultGrp))
      (fun (acc : PredMaps) lg_idx => (List.range gps.length).foldlM
        (fun (acc : PredMaps) gp_idx =>
          predict_pair env ew (env.getPeriod (env.getStartYear ew - 1) 40 17)
            (lgs.getD lg_idx []) (gps.getD gp_idx [])
            (min maxW (env.getMaxWindow ew)) mode mt acc) acc)
      ?_ ?_ (List.range lgs.length) emptyPredMaps maps hp li
      (List.mem_range.mpr hli)
    · have hkey := houter gi hgi l g
        (by rw [List.getD_eq_getElem lgs [] hli, hlieq]; exact hl)
        (by rw [List.getD_eq_getElem gps [] hgi, hgieq]; exact hg)
      rw [List.getD_eq_getElem lgs [] hli, hlieq, List.getD_eq_getElem gps [] hgi,
        hgieq, List.getD_eq_getElem locations defaultLoc hl, hleq,
        List.getD_eq_getElem groups defaultGrp hg, hgeq] at hkey
      exact hkey
    · intro s a s2 b hfold hb
      intro gp_idx hgp l2 g2 hl2 hg2
      refine foldlM_ok_inv
        (fun (s : PredMaps) => allSome s ((lgs.getD b []).getD l2 defaultLoc,
          (gps.getD gp_idx []).getD g2 defaultGrp))
        _ _ _ (hb gp_idx hgp l2 g2 hl2 hg2) ?_ s2 hfold
      intro s3 gp2 s4 _ hs3 hstep
      exact predict_pair_mono env ew (env.getPeriod (env.getStartYear ew - 1) 40 17)
        (lgs.getD a []) (gps.getD gp2 []) (min maxW (env.getMaxWindow ew)) mode mt
        s3 s4 _ hstep hs3
    · intro s a s2 hfold
      intro gp_idx hgp l2 g2 hl2 hg2
      have hinner := foldlM_ok_mem
        (fun gp_idx2 (s : PredMaps) => ∀ l3 g3, l3 < (lgs.getD a []).length →
          g3 < (gps.getD gp_idx2 []).length →
          allSome s ((lgs.getD a []).getD l3 defaultLoc,
            (gps.getD gp_idx2 []).getD g3 defaultGrp))
        (fun (acc : PredMaps) gp_idx2 =>
          predict_pair env ew (env.getPeriod (env.getStartYear ew - 1) 40 17)
            (lgs.getD a []) (gps.getD gp_idx2 [])
            (min maxW (env.getMaxWindow ew)) mode mt acc)
        ?_ ?_ (List.range gps.length) s s2 hfold gp_idx (List.mem_range.mpr hgp)
      · exact hinner l2 g2 hl2 hg2
      · intro s3 a2 s4 b2 hstep hs3
        intro l3 g3 hl3 hg3
        exact predict_pair_mono env ew (env.getPeriod (env.getStartYear ew - 1) 40 17)
          (lgs.getD a []) (gps.getD a2 []) (min maxW (env.getMaxWindow ew)) mode mt
          s3 s4 _ hstep (hs3 l3 g3 hl3 hg3)
      · intro s3 a2 s4 hstep
        intro l3 g3 hl3 hg3
        exact predict_pair_sets env ew (env.getPeriod (env.getStartYear ew - 1) 40 17)
          (lgs.getD a []) (gps.getD a2 []) (min maxW (env.getMaxWindow ew)) mode mt
          s3 s4 l3 g3 hstep hl3 hg3

/-- Witness for C10 at a concrete one-pair input. -/
theorem predict_outputs_every_pair_witness :
    onOk (predict env0 1 [[locX]] [[0]] 0 modeAll tagLin)
      (fun maps => allSome maps (locX, 0)) := by
  have h := predict_outputs_every_pair env0 1 [[locX]] [[0]] 0 modeAll tagLin
  unfold onOk at h ⊢
  cases hp : predict env0 1 [[locX]] [[0]] 0 modeAll tagLin with
  | error e => trivial
  | ok maps =>
    rw [hp] at h
    exact h [locX] (by simp) [0] (by simp) locX (by simp) 0 (by simp)

end FluRegression
